import Mathlib

/-!
Verification of the pipeline-cycle-time analysis engine.

This file shallowly embeds the analyzers and the correlator of the
`pipeline_cycle_time` package and proves or refutes the specified
properties about them.  Conventions of the embedding:

* machine floats are modelled as exact rationals (`ℚ`); the numeric
  operations of the analyzers (sums, averages, divisions by 1000, ...)
  are exact on the values appearing here; the metrics summarizer, whose
  samples can be IEEE infinities or NaN, uses the explicit float domain
  `Metrics.PyF` on top of `ℚ`;
* Python `datetime` values are modelled by their epoch value in seconds
  as a rational number; epoch-millisecond integers stay integers;
* Python's stable `list.sort` is modelled by `List.insertionSort`
  (a stable sort; any two stable sorts by the same key agree);
* regular-expression searches of the source are implemented as explicit
  left-to-right scanners over the character list (the patterns used by
  the source are all of the "literal prefix + greedy digit groups"
  kind, for which maximal munch coincides with the regex semantics);
* fallible code paths (uncaught exceptions) are modelled by `Option`.
-/

set_option maxRecDepth 10000
set_option maxHeartbeats 1000000

/-! ### String scanning utilities shared by the analyzers -/

namespace StrUtil

/-- Substring test on character lists: Python's `pat in hay`. -/
def containsSub (pat : List Char) : List Char → Bool
  | [] => List.isPrefixOf pat []
  | c :: t => List.isPrefixOf pat (c :: t) || containsSub pat t

/-- Python's `pat in s` substring containment. -/
def strContains (s pat : String) : Bool :=
  containsSub pat.data s.data

/-- Python's `s.lower()` (the markers scanned here are ASCII). -/
def lowerStr (s : String) : String :=
  String.mk (s.data.map Char.toLower)

/-- Split a character list into its maximal digit prefix and the rest. -/
def takeDigits : List Char → List Char × List Char
  | [] => ([], [])
  | c :: t =>
    if c.isDigit then
      let p := takeDigits t
      (c :: p.1, p.2)
    else ([], c :: t)

/-- Value of a decimal digit string. -/
def digitsToNat (l : List Char) : ℕ :=
  l.foldl (fun acc c => acc * 10 + (c.toNat - 48)) 0

/-- Value of `"<d1>.<d2>"` as an exact rational. -/
def fracVal (d1 d2 : List Char) : ℚ :=
  (digitsToNat d1 : ℚ) + (digitsToNat d2 : ℚ) / ((10 : ℚ) ^ d2.length)

/-- Best-effort model of Python `float(s)` for the `digits.digits` and
`digits` strings this code base feeds to it (other shapes yield 0). -/
def parseFloatQ (s : String) : ℚ :=
  let p := takeDigits s.data
  match p.2 with
  | '.' :: r2 => fracVal p.1 (takeDigits r2).1
  | _ => (digitsToNat p.1 : ℚ)

/-- Python's `s.rstrip("s")`. -/
def rstripS (s : String) : String :=
  String.mk (s.data.reverse.dropWhile (fun c => c = 's')).reverse

end StrUtil

open StrUtil

/-! ### Test-timeline analyzer (`analyzers/test_reports.py`)

`TestInfo` carries epoch-millisecond integers exactly as the source;
derived seconds values are rationals. -/

namespace TestReports

structure TestInfo where
  name : String
  uid : String
  status : String
  start : ℤ
  stop : ℤ
  duration : ℤ
  worker : String
  pool : String
  flaky : Bool
  retries : ℕ
deriving Repr, DecidableEq

/-- `PoolStats`: all tests sharing a pool id. -/
structure PoolStats where
  name : String
  tests : List TestInfo
deriving Repr, DecidableEq

def PoolStats.count (p : PoolStats) : ℕ := p.tests.length

/-- `min(t.start for t in tests)` over a nonempty list (0 for empty,
matching the guarded Python accessors). -/
def minStart (l : List TestInfo) : ℤ :=
  ((l.map TestInfo.start).min?).getD 0

def maxStop (l : List TestInfo) : ℤ :=
  ((l.map TestInfo.stop).max?).getD 0

/-- Two tests overlap in time: their `[start, stop]` intervals
intersect. -/
def overlapT (t1 t2 : TestInfo) : Prop :=
  max t1.start t2.start ≤ min t1.stop t2.stop

instance (t1 t2 : TestInfo) : Decidable (overlapT t1 t2) :=
  inferInstanceAs (Decidable (_ ≤ _))

def PoolStats.wall_clock_s (p : PoolStats) : ℚ :=
  if p.tests.isEmpty then 0
  else ((maxStop p.tests - minStart p.tests : ℤ) : ℚ) / 1000

def PoolStats.aggregate_s (p : PoolStats) : ℚ :=
  ((p.tests.map TestInfo.duration).sum : ℚ) / 1000

def PoolStats.parallelism (p : PoolStats) : ℚ :=
  if p.wall_clock_s = 0 then 0 else p.aggregate_s / p.wall_clock_s

def PoolStats.start_ms (p : PoolStats) : ℤ :=
  if p.tests.isEmpty then 0 else minStart p.tests

def PoolStats.stop_ms (p : PoolStats) : ℤ :=
  if p.tests.isEmpty then 0 else maxStop p.tests

/-- `TestSuiteResult`; `pools` is an insertion-ordered association list
modelling the Python `dict[str, PoolStats]`. -/
structure TestSuiteResult where
  name : String
  tests : List TestInfo
  pools : List (String × PoolStats)
deriving Repr, DecidableEq

def TestSuiteResult.total_tests (r : TestSuiteResult) : ℕ := r.tests.length

def TestSuiteResult.failed_tests (r : TestSuiteResult) : List TestInfo :=
  r.tests.filter (fun t => t.status = "failed")

/-- `sorted(self.pools.values(), key=lambda p: p.start_ms)` — a stable
sort of the dict's insertion-ordered values by `start_ms`. -/
def sortedPoolsByStart (r : TestSuiteResult) : List PoolStats :=
  List.insertionSort (fun a b => a.start_ms ≤ b.start_ms) (r.pools.map Prod.snd)

/-- `TestSuiteResult.sequential_pool_waste_s`.  Note the source's
`if curr.start_ms > prev.stop_ms: pass` is dead: the wall clock of
every later pool is added unconditionally. -/
def TestSuiteResult.sequential_pool_waste_s (r : TestSuiteResult) : ℚ :=
  if r.pools.length < 2 then 0
  else
    match sortedPoolsByStart r with
    | [] => 0
    | _ :: rest => (rest.map PoolStats.wall_clock_s).sum

/-- Result record of `setup_phase_analysis` (the Python dict). -/
structure SetupPhase where
  setup_tests : ℕ
  main_tests : ℕ
  setup_duration_s : ℚ
  all_workers : ℕ
  setup_workers : ℕ
  idle_workers : ℕ
  idle_worker_names : List String
deriving Repr, DecidableEq

/-- Distinct worker names of a test list, in first-appearance order
(models the contents of the Python `set`; only its cardinality and its
sorted listing are ever consumed). -/
def workerSet (l : List TestInfo) : List String :=
  (l.map TestInfo.worker).dedup

/-- `TestSuiteResult.setup_phase_analysis` (empty dict modelled as
`none`). -/
def TestSuiteResult.setup_phase_analysis (r : TestSuiteResult) (threshold_s : ℚ) :
    Option SetupPhase :=
  if r.tests.isEmpty then none
  else
    let all_start : ℤ := minStart r.tests
    let cutoff : ℚ := (all_start : ℚ) + threshold_s * 1000
    let setupT := r.tests.filter (fun t => (t.start : ℚ) < cutoff)
    let mainT := r.tests.filter (fun t => cutoff ≤ (t.start : ℚ))
    let allW := workerSet r.tests
    let setupW := workerSet setupT
    let idleW := allW.filter (fun w => ¬ w ∈ setupW)
    some
      { setup_tests := setupT.length
        main_tests := mainT.length
        setup_duration_s := threshold_s
        all_workers := allW.length
        setup_workers := setupW.length
        idle_workers := idleW.length
        idle_worker_names := List.insertionSort (fun a b => a ≤ b) idleW }

/-- Result record of `polling_analysis`. -/
structure PollingInfo where
  aggregate_min : ℚ
  polling_test_count : ℕ
  polling_pct : ℚ
deriving Repr, DecidableEq

def TestSuiteResult.polling_analysis (r : TestSuiteResult) : Option PollingInfo :=
  if r.tests.isEmpty then none
  else
    let aggregate_ms : ℤ := (r.tests.map TestInfo.duration).sum
    let pollingT := r.tests.filter (fun t => 16000 < t.duration)
    let polling_aggregate : ℤ := (pollingT.map TestInfo.duration).sum
    let pct : ℚ :=
      if 0 < aggregate_ms then (polling_aggregate : ℚ) / (aggregate_ms : ℚ) * 100 else 0
    some
      { aggregate_min := (aggregate_ms : ℚ) / 60000
        polling_test_count := pollingT.length
        polling_pct := pct }

end TestReports

/-! ### Metrics analyzer (`analyzers/metrics.py`)

The summarizer is specified from the point where the artifact's bytes
have been read and lexed: `absent` covers `FileNotFoundError`,
`badJson` covers `json.JSONDecodeError` (including the empty file), and
`content` carries the full decoded JSON value.  `_summarize` only
catches the two open/decode errors; on a decoded value of unexpected
shape its attribute accesses, indexings and unpackings raise, which the
embedding models by returning `none` at the outer `Option` layer. -/

namespace Metrics

/-- The `ℚ`-valued summary consumed by the correlator layer (whose
inputs are finite). -/
structure MetricSummary where
  name : String
  min_val : ℚ
  max_val : ℚ
  avg_val : ℚ
  unit : String
deriving Repr, DecidableEq

/-- The value domain of Python `float`: a finite rational, one of the
two infinities, or NaN.  Finite IEEE doubles are exact rationals. -/
inductive PyF where
  | fin (q : ℚ)
  | pinf
  | ninf
  | nan
deriving Repr, DecidableEq

/-- The summary record built by `_summarize`, with float-valued fields:
its aggregates can be infinite or NaN when a series carries `"+Inf"`
samples. -/
structure MetricSummaryF where
  name : String
  min_val : PyF
  max_val : PyF
  avg_val : PyF
  unit : String
deriving Repr, DecidableEq

/-- A decoded JSON value as produced by `json.load`: objects are
insertion-ordered association lists with distinct keys (duplicate keys
collapse during decoding), numbers are floats (`json.load` also accepts
the `NaN`/`Infinity` literals). -/
inductive JVal where
  | jnull
  | jbool (b : Bool)
  | jnum (x : PyF)
  | jstr (s : String)
  | jarr (xs : List JVal)
  | jobj (fields : List (String × JVal))

inductive MetricFile where
  | absent
  | badJson
  | content (v : JVal)

/-- Python `v.get(k, dflt)`: `none` models the `AttributeError` raised
when `v` is not a dict. -/
def pyGet (v : JVal) (k : String) (dflt : JVal) : Option JVal :=
  match v with
  | JVal.jobj fs => some (((fs.find? (fun p => p.1 == k)).map Prod.snd).getD dflt)
  | _ => none

/-- Python `v.get(k)`: the default is `None` (`jnull`), which is used
only for a missing key — an explicit `null` value is returned as is. -/
def pyGetD (v : JVal) (k : String) : Option JVal :=
  pyGet v k JVal.jnull

/-- Python `v == s` for a string literal `s` (never raises). -/
def isStr (v : JVal) (s : String) : Bool :=
  match v with
  | JVal.jstr t => t == s
  | _ => false

/-- Python truth value of a decoded JSON value (`if not results`). -/
def falsy (v : JVal) : Bool :=
  match v with
  | JVal.jnull => true
  | JVal.jbool b => !b
  | JVal.jnum x => x == PyF.fin 0
  | JVal.jstr s => s == ""
  | JVal.jarr xs => xs.isEmpty
  | JVal.jobj fs => fs.isEmpty

/-- Python `v[0]`: lists and strings index, everything else raises
(`TypeError`, or `KeyError` for a dict, or `IndexError` when empty). -/
def pyIndex0 (v : JVal) : Option JVal :=
  match v with
  | JVal.jarr (x :: _) => some x
  | JVal.jstr s =>
    match s.data with
    | c :: _ => some (JVal.jstr (String.mk [c]))
    | [] => none
  | _ => none

/-- Python `for r in v`: lists yield their elements, strings their
characters, dicts their keys; `none` models the `TypeError` on a
non-iterable. -/
def pyIter (v : JVal) : Option (List JVal) :=
  match v with
  | JVal.jarr xs => some xs
  | JVal.jstr s => some (s.data.map (fun c => JVal.jstr (String.mk [c])))
  | JVal.jobj fs => some (fs.map (fun p => JVal.jstr p.1))
  | _ => none

/-- Python `_, v = w`: the second component of a two-element unpacking;
`none` models the uncaught `TypeError`/`ValueError` when `w` is not an
iterable of exactly two items. -/
def unpack2 (w : JVal) : Option JVal :=
  match w with
  | JVal.jarr [_, b] => some b
  | JVal.jstr s =>
    match s.data with
    | [_, c] => some (JVal.jstr (String.mk [c]))
    | _ => none
  | JVal.jobj [_, p] => some (JVal.jstr p.1)
  | _ => none

/-- The whitespace stripped by Python `float(str)`. -/
def isWs (c : Char) : Bool :=
  c == ' ' || c == '\t' || c == '\n' || c == '\r' || c == '\x0b' || c == '\x0c'

def stripWs (cs : List Char) : List Char :=
  ((cs.dropWhile isWs).reverse.dropWhile isWs).reverse

/-- A run of decimal digits with single underscores allowed between
digit groups (Python numeric-literal grouping): the digits with their
underscores removed, and the unconsumed rest. -/
def digitsU : List Char → List Char × List Char
  | [] => ([], [])
  | c :: cs =>
    if c.isDigit then
      match cs with
      | '_' :: d :: rest =>
        if d.isDigit then
          let p := digitsU (d :: rest)
          (c :: p.1, p.2)
        else ([c], '_' :: d :: rest)
      | other =>
        let p := digitsU other
        (c :: p.1, p.2)
    else ([], c :: cs)
termination_by cs => cs.length
decreasing_by
  all_goals simp_arith

/-- The exponent part `("e"|"E")[sign]digits` applied to a mantissa;
anything left unconsumed is a `ValueError`. -/
def expVal (q : ℚ) (cs : List Char) : Option ℚ :=
  let sp :=
    match cs with
    | '+' :: t => (false, t)
    | '-' :: t => (true, t)
    | t => (false, t)
  let ep := digitsU sp.2
  if ep.1.isEmpty || !ep.2.isEmpty then none
  else
    let e := StrUtil.digitsToNat ep.1
    some (if sp.1 then q / 10 ^ e else q * 10 ^ e)

def applyExp (q : ℚ) (cs : List Char) : Option ℚ :=
  match cs with
  | [] => some q
  | 'e' :: r => expVal q r
  | 'E' :: r => expVal q r
  | _ => none

/-- `[digits]["." [digits]][exponent]` with at least one mantissa digit
and the whole input consumed. -/
def parseDecimal (cs : List Char) : Option ℚ :=
  let ip := digitsU cs
  match ip.2 with
  | '.' :: r =>
    let fp := digitsU r
    if ip.1.isEmpty && fp.1.isEmpty then none
    else applyExp (StrUtil.fracVal ip.1 fp.1) fp.2
  | r =>
    if ip.1.isEmpty then none
    else applyExp (StrUtil.digitsToNat ip.1 : ℚ) r

def pyFloatBody (neg : Bool) (cs : List Char) : Option PyF :=
  let low := cs.map Char.toLower
  if low == "inf".data || low == "infinity".data then
    some (if neg then PyF.ninf else PyF.pinf)
  else if low == "nan".data then some PyF.nan
  else
    match parseDecimal cs with
    | some q => some (PyF.fin (if neg then -q else q))
    | none => none

/-- Python `float(str)`: optional surrounding whitespace and sign, then
`inf`/`infinity`/`nan` (case-insensitive) or a decimal literal. -/
def pyFloatOfString (s : String) : Option PyF :=
  match stripWs s.data with
  | '+' :: r => pyFloatBody false r
  | '-' :: r => pyFloatBody true r
  | r => pyFloatBody false r

/-- Python `float(v)` on a decoded JSON value: `none` models the caught
`ValueError`/`TypeError` (the sample is skipped). -/
def pyFloat (v : JVal) : Option PyF :=
  match v with
  | JVal.jnum x => some x
  | JVal.jbool b => some (PyF.fin (if b then 1 else 0))
  | JVal.jstr s => pyFloatOfString s
  | _ => none

/-- Python `min` on floats as used here; NaN never reaches the
aggregates (it is filtered before collection). -/
def pfMin (a b : PyF) : PyF :=
  match a, b with
  | PyF.nan, _ => PyF.nan
  | _, PyF.nan => PyF.nan
  | PyF.ninf, _ => PyF.ninf
  | _, PyF.ninf => PyF.ninf
  | PyF.pinf, y => y
  | x, PyF.pinf => x
  | PyF.fin x, PyF.fin y => PyF.fin (min x y)

def pfMax (a b : PyF) : PyF :=
  match a, b with
  | PyF.nan, _ => PyF.nan
  | _, PyF.nan => PyF.nan
  | PyF.pinf, _ => PyF.pinf
  | _, PyF.pinf => PyF.pinf
  | PyF.ninf, y => y
  | x, PyF.ninf => x
  | PyF.fin x, PyF.fin y => PyF.fin (max x y)

/-- IEEE addition on the values occurring here (`inf + -inf = nan`). -/
def pfAdd (a b : PyF) : PyF :=
  match a, b with
  | PyF.nan, _ => PyF.nan
  | _, PyF.nan => PyF.nan
  | PyF.pinf, PyF.ninf => PyF.nan
  | PyF.ninf, PyF.pinf => PyF.nan
  | PyF.pinf, _ => PyF.pinf
  | _, PyF.pinf => PyF.pinf
  | PyF.ninf, _ => PyF.ninf
  | _, PyF.ninf => PyF.ninf
  | PyF.fin x, PyF.fin y => PyF.fin (x + y)

/-- Division by `len(nums)` — always positive at the call site (the
empty case returns earlier, so Python's `ZeroDivisionError` is
unreachable). -/
def pfDivNat (a : PyF) (n : ℕ) : PyF :=
  match a with
  | PyF.fin x => PyF.fin (x / n)
  | x => x

/-- Python `min(nums)` / `max(nums)` over the nonempty `nums` (the
empty case is behind the emptiness guard; `min([])` would raise). -/
def pfListMin (l : List PyF) : PyF :=
  match l with
  | [] => PyF.fin 0
  | x :: t => t.foldl pfMin x

def pfListMax (l : List PyF) : PyF :=
  match l with
  | [] => PyF.fin 0
  | x :: t => t.foldl pfMax x

/-- Python `sum(nums)` (starts from the int `0`). -/
def pfSum (l : List PyF) : PyF :=
  l.foldl pfAdd (PyF.fin 0)

def pfAvg (l : List PyF) : PyF :=
  pfDivNat (pfSum l) l.length

/-- The target-selection loop of `_summarize`: the first result whose
`metric.container` equals `webapp` or `dispatcher`, defaulting to
`results[0]`; `none` models the `AttributeError` raised on a non-dict
result entry or `metric` value. -/
def findTarget : List JVal → JVal → Option JVal
  | [], t0 => some t0
  | r :: rest, t0 =>
    match pyGet r "metric" (JVal.jobj []) with
    | none => none
    | some mv =>
      match pyGet mv "container" (JVal.jstr "") with
      | none => none
      | some cv =>
        if isStr cv "webapp" || isStr cv "dispatcher" then some r
        else findTarget rest t0

/-- The sample loop of `_summarize`: each element of `values` is
unpacked as `_, v` (an uncaught error when it is not a pair), then
`float(v)` failures are caught and skipped and NaN samples filtered;
finite and infinite floats are collected. -/
def collectNums : List JVal → Option (List PyF)
  | [] => some []
  | w :: rest =>
    match unpack2 w with
    | none => none
    | some v =>
      match collectNums rest with
      | none => none
      | some ns =>
        match pyFloat v with
        | none => some ns
        | some PyF.nan => some ns
        | some x => some (x :: ns)

/-- Lines 51–72 of `_summarize`: extract the numeric (non-NaN) samples
of the targeted series from a success envelope; `none` models an
uncaught exception on an ill-shaped decoded value.  The early
`if not results: return None` is modelled by `some []` (no samples). -/
def extractNums (data : JVal) : Option (List PyF) :=
  match pyGet data "data" (JVal.jobj []) with
  | none => none
  | some dv =>
    match pyGet dv "result" (JVal.jarr []) with
    | none => none
    | some rv =>
      if falsy rv then some []
      else
        match pyIndex0 rv with
        | none => none
        | some t0 =>
          match pyIter rv with
          | none => none
          | some rs =>
            match findTarget rs t0 with
            | none => none
            | some target =>
              match pyGet target "values" (JVal.jarr []) with
              | none => none
              | some vs =>
                match pyIter vs with
                | none => none
                | some ws => collectNums ws

/-- `_summarize` of `metrics.py`.  The outer `Option` models uncaught
exceptions (`none` = the call raises); `some none` is a returned
`None`. -/
def summarize (file : MetricFile) (name unit : String) :
    Option (Option MetricSummaryF) :=
  match file with
  | MetricFile.absent => some none
  | MetricFile.badJson => some none
  | MetricFile.content data =>
    match pyGetD data "status" with
    | none => none
    | some st =>
      if isStr st "success" then
        match extractNums data with
        | none => none
        | some nums =>
          if nums.isEmpty then some none
          else
            some (some
              { name := name
                min_val := pfListMin nums
                max_val := pfListMax nums
                avg_val := pfAvg nums
                unit := unit })
      else some none

structure MetricsResult where
  cpu : Option MetricSummary
  memory : Option MetricSummary
  hikaricp_active : Option MetricSummary
  hikaricp_pending : Option MetricSummary
  jetty_threads : Option MetricSummary
  jvm_heap : Option MetricSummary
  jvm_threads : Option MetricSummary
  gc : Option MetricSummary
  dispatcher_cpu : Option MetricSummary
  dispatcher_memory : Option MetricSummary
deriving Repr, DecidableEq

def MetricsResult.empty : MetricsResult :=
  ⟨none, none, none, none, none, none, none, none, none, none⟩

/-- `MetricsResult.has_headroom` (defined by the source but never
consulted by the correlator). -/
def MetricsResult.has_headroom (m : MetricsResult) : Bool :=
  match m.cpu, m.hikaricp_pending with
  | some cpu, some pend => cpu.avg_val < 1 ∧ pend.max_val = 0
  | _, _ => false

end Metrics

/-! ### Application-log analyzer (`analyzers/app_logs.py`)

Both entry points are specified from the decoded Loki envelope: a
`status` plus streams each carrying a `stream` label set (its `stream`
type with Python default `"unknown"`, its `pod` with default `""`) and
`(timestamp_ns, line)` values. -/

namespace AppLogs

structure LokiStream where
  streamType : String
  pod : String
  values : List (ℤ × String)
deriving Repr, DecidableEq

structure LokiEnvelope where
  status : String
  result : List LokiStream
deriving Repr, DecidableEq

structure LogWarning where
  category : String
  count : ℕ
  description : String
  worst_case : String
deriving Repr, DecidableEq

structure DispatcherTimeline where
  job_id : String
  pod_name : String
  first_log_ns : ℤ
  last_log_ns : ℤ
  compute_start_ns : ℤ
  compute_end_ns : ℤ
deriving Repr, DecidableEq

def DispatcherTimeline.empty : DispatcherTimeline := ⟨"", "", 0, 0, 0, 0⟩

def DispatcherTimeline.total_duration_s (t : DispatcherTimeline) : ℚ :=
  if t.first_log_ns ≠ 0 ∧ t.last_log_ns ≠ 0 then
    ((t.last_log_ns - t.first_log_ns : ℤ) : ℚ) / 1000000000
  else 0

def DispatcherTimeline.compute_duration_s (t : DispatcherTimeline) : ℚ :=
  if t.compute_start_ns ≠ 0 ∧ t.compute_end_ns ≠ 0 then
    ((t.compute_end_ns - t.compute_start_ns : ℤ) : ℚ) / 1000000000
  else 0

structure AppLogsResult where
  warnings : List LogWarning
  error_count : ℕ
  validation_error_count : ℕ
  total_log_entries : ℕ
deriving Repr, DecidableEq

def AppLogsResult.empty : AppLogsResult := ⟨[], 0, 0, 0⟩

/-- First match of `(\d+\.\d+)s` at the head of the character list:
group 1 (as characters) and its numeric value. -/
def matchDurAt (l : List Char) : Option (List Char × ℚ) :=
  let p1 := StrUtil.takeDigits l
  if p1.1.isEmpty then none
  else
    match p1.2 with
    | '.' :: r2 =>
      let p2 := StrUtil.takeDigits r2
      if p2.1.isEmpty then none
      else
        match p2.2 with
        | 's' :: _ => some (p1.1 ++ '.' :: p2.1, StrUtil.fracVal p1.1 p2.1)
        | _ => none
    | _ => none

/-- `re.search(r"(\d+\.\d+)s", line)`: leftmost match. -/
def searchDurList : List Char → Option (List Char × ℚ)
  | [] => none
  | c :: t =>
    match matchDurAt (c :: t) with
    | some r => some r
    | none => searchDurList t

def searchDur (s : String) : Option (String × ℚ) :=
  (searchDurList s.data).map (fun r => (String.mk r.1, r.2))

/-- Line classifications of the webapp scan. -/
def isEffectLine (line : String) : Bool :=
  strContains line "WARN" && strContains line "EffectConsumer"

def isHibernateLine (line : String) : Bool :=
  strContains line "WARN" && strContains (lowerStr line) "dialect" &&
    (strContains (lowerStr line) "mariadb" || strContains (lowerStr line) "hibernate" ||
      strContains (lowerStr line) "mysql")

def isMissingLine (line : String) : Bool :=
  strContains line "WARN" && strContains (lowerStr line) "missing" &&
    (strContains (lowerStr line) "dataset" || strContains (lowerStr line) "attribute")

/-- One step of the worst-case tracking: `m.group(0)` replaces the
current worst when there is none yet or the new group-1 value is
strictly larger. -/
def updateWorst (worst : String) (line : String) : String :=
  match searchDur line with
  | none => worst
  | some m =>
    if worst = "" ∨ m.2 > StrUtil.parseFloatQ (StrUtil.rstripS worst)
    then m.1 ++ "s"
    else worst

/-- Running worst-case over the EffectConsumer lines seen so far. -/
def foldWorst (lines : List String) : String :=
  lines.foldl updateWorst ""

/-- The flattened `(ts, line)` entries of a webapp envelope. -/
def webappEntries (env : LokiEnvelope) : List (ℤ × String) :=
  env.result.flatMap LokiStream.values

/-- The lines scanned by the webapp analyzer. -/
def webappLines (env : LokiEnvelope) : List String :=
  (webappEntries env).map Prod.snd

def ecMatchingLines (env : LokiEnvelope) : List String :=
  (webappLines env).filter isEffectLine

def hibMatchingLines (env : LokiEnvelope) : List String :=
  (webappLines env).filter isHibernateLine

def missMatchingLines (env : LokiEnvelope) : List String :=
  (webappLines env).filter isMissingLine

/-- The first embedded `(\d+\.\d+)s` duration of each matching line. -/
def ecFirstDurs (env : LokiEnvelope) : List ℚ :=
  (ecMatchingLines env).filterMap (fun l => (searchDur l).map Prod.snd)

/-- Maximum of two optional values (the running-maximum view of the
worst-case fold). -/
def combineMax (m : Option ℚ) (d : Option ℚ) : Option ℚ :=
  match m, d with
  | none, d => d
  | some a, none => some a
  | some a, some b => some (max a b)

/-- What the worst-case fold maintains: the worst string is either
empty (no duration seen yet) or the group-0 text of some seen match
whose group-1 value is the running maximum. -/
def worstRel (w : String) (m : Option ℚ) : Prop :=
  (w = "" ∧ m = none) ∨
  (∃ d1 d2 : List Char, d1 ≠ [] ∧ d2 ≠ [] ∧
    (∀ c ∈ d1, c.isDigit = true) ∧ (∀ c ∈ d2, c.isDigit = true) ∧
    w = String.mk ((d1 ++ '.' :: d2) ++ ['s']) ∧
    m = some (StrUtil.fracVal d1 d2))

/-- The EffectConsumer-queue-blocking warning block (emitted when the
accumulated count is positive). -/
def ecWarning (env : LokiEnvelope) : List LogWarning :=
  if 0 < (ecMatchingLines env).length then
    [⟨"EffectConsumer queue blocking", (ecMatchingLines env).length,
      "Messages that 'should have been an actuator' blocked the EffectConsumer queue",
      foldWorst (ecMatchingLines env)⟩]
  else []

/-- The Hibernate-dialect warning block. -/
def hibWarning (env : LokiEnvelope) : List LogWarning :=
  if 0 < (hibMatchingLines env).length then
    [⟨"Hibernate dialect mismatch", (hibMatchingLines env).length,
      "MariaDB dialect configured but database is MySQL 8.0", ""⟩]
  else []

/-- The missing-dataset-attribute warning block. -/
def missWarning (env : LokiEnvelope) : List LogWarning :=
  if 0 < (missMatchingLines env).length then
    [⟨"Missing dataset attribute mappings", (missMatchingLines env).length,
      "Dataset attribute mapping warnings", ""⟩]
  else []

/-- `analyze_webapp_logs`, from the decoded envelope. -/
def analyze_webapp_logs (env : LokiEnvelope) : AppLogsResult :=
  if env.status ≠ "success" then AppLogsResult.empty
  else
    { warnings := ecWarning env ++ hibWarning env ++ missWarning env
      error_count := ((webappLines env).filter (fun l => strContains l "ERROR")).length
      validation_error_count :=
        ((webappLines env).filter
          (fun l => strContains l "ERROR" && strContains (lowerStr l) "valid")).length
      total_log_entries := (webappEntries env).length }

/-- Match of `Running job (\d+)` at the head: the digits of group 1. -/
def matchRunningJobAt (l : List Char) : Option String :=
  let pre := "Running job ".data
  if List.isPrefixOf pre l then
    let ds := (StrUtil.takeDigits (l.drop pre.length)).1
    if ds.isEmpty then none else some (String.mk ds)
  else none

/-- `re.search(r"Running job (\d+)", line)`. -/
def searchRunningJobList : List Char → Option String
  | [] => none
  | c :: t =>
    match matchRunningJobAt (c :: t) with
    | some r => some r
    | none => searchRunningJobList t

def searchRunningJob (s : String) : Option String :=
  searchRunningJobList s.data

/-- The `(ts, line, stream_type)` entries of a dispatcher envelope, in
stream order. -/
def dispatcherEntries (env : LokiEnvelope) : List (ℤ × String × String) :=
  env.result.flatMap (fun st => st.values.map (fun v => (v.1, v.2, st.streamType)))

/-- Last nonempty `pod` label, Python's repeated truthy overwrite. -/
def lastPod (env : LokiEnvelope) : String :=
  env.result.foldl (fun acc st => if st.pod ≠ "" then st.pod else acc) ""

/-- Entries sorted (stably) by timestamp. -/
def sortedDispatcherEntries (env : LokiEnvelope) : List (ℤ × String × String) :=
  List.insertionSort (fun a b => a.1 ≤ b.1) (dispatcherEntries env)

/-- `analyze_dispatcher_logs`, from the decoded envelope. -/
def analyze_dispatcher_logs (env : LokiEnvelope) : DispatcherTimeline :=
  if env.status ≠ "success" then DispatcherTimeline.empty
  else
    let pod := lastPod env
    let entries := dispatcherEntries env
    if entries.isEmpty then { DispatcherTimeline.empty with pod_name := pod }
    else
      let sorted := sortedDispatcherEntries env
      let firstNs := ((sorted.head?).map Prod.fst).getD 0
      let lastNs := ((sorted.getLast?).map Prod.fst).getD 0
      -- job-start scan: the loop breaks at the first line containing
      -- "Running job", whether or not the job id parsed
      let jobInfo : String × ℤ :=
        match sorted.find? (fun e => strContains e.2.1 "Running job") with
        | none => ("", 0)
        | some e =>
          match searchRunningJob e.2.1 with
          | some ds => (ds, e.1)
          | none => ("", 0)
      -- compute-end scan, from the latest entry backward
      let isFinish : ℤ × String × String → Bool := fun e =>
        e.2.2 = "stdout" && strContains e.2.1 "Finished" && strContains e.2.1 "S3"
      let endNs0 : ℤ :=
        match (sorted.reverse).find? isFinish with
        | some e => e.1
        | none => 0
      let stdoutEntries := sorted.filter (fun e => e.2.2 = "stdout")
      let endNs : ℤ :=
        if endNs0 = 0 then
          match stdoutEntries.getLast? with
          | some e => e.1
          | none => endNs0
        else endNs0
      { job_id := jobInfo.1
        pod_name := pod
        first_log_ns := firstNs
        last_log_ns := lastNs
        compute_start_ns := jobInfo.2
        compute_end_ns := endNs }

end AppLogs

/-! ### Orchestration analyzer (`analyzers/orchestration.py`)

Specified from the point where `TIMESTAMP_RE` has lexed the log into
`(timestamp, level, message)` entries; timestamps are epoch seconds as
rationals (any list of timestamped messages is a reachable lexer
output, so nothing is lost).  `Phase.end` is spelled `stop` because
`end` is reserved in Lean. -/

namespace Orchestration

structure LogEntry where
  ts : ℚ
  level : String
  msg : String
deriving Repr, DecidableEq

structure Phase where
  name : String
  start : ℚ
  stop : ℚ
deriving Repr, DecidableEq

def Phase.duration_s (p : Phase) : ℚ := p.stop - p.start

structure ResumeOverhead where
  resume_time : ℚ
  repo_export_s : ℚ
  dep_resolution_s : ℚ
deriving Repr, DecidableEq

def ResumeOverhead.total_s (r : ResumeOverhead) : ℚ :=
  r.repo_export_s + r.dep_resolution_s

structure OrchestrationResult where
  phases : List Phase
  children : List String
  suspend_times : List ℚ
  resume_overheads : List ResumeOverhead
  total_start : Option ℚ
  total_end : Option ℚ
deriving Repr, DecidableEq

def OrchestrationResult.emptyResult : OrchestrationResult :=
  ⟨[], [], [], [], none, none⟩

def OrchestrationResult.total_resume_overhead_s (r : OrchestrationResult) : ℚ :=
  (r.resume_overheads.map ResumeOverhead.total_s).sum

def OrchestrationResult.resume_count (r : OrchestrationResult) : ℕ :=
  r.resume_overheads.length

/-- Match of the child-process marker
`Started a process: <concord:instanceId>([^<]+)</concord:instanceId>`
at the head of the list. -/
def matchChildAt (l : List Char) : Option String :=
  let pre := "Started a process: <concord:instanceId>".data
  if List.isPrefixOf pre l then
    let rest := l.drop pre.length
    let inner := rest.takeWhile (fun c => c ≠ '<')
    if inner.isEmpty then none
    else if List.isPrefixOf "</concord:instanceId>".data (rest.drop inner.length) then
      some (String.mk inner)
    else none
  else none

def searchChildList : List Char → Option String
  | [] => none
  | c :: t =>
    match matchChildAt (c :: t) with
    | some r => some r
    | none => searchChildList t

def searchChild (s : String) : Option String :=
  searchChildList s.data

/-- Match of `Repository data export took (\d+)ms` at the head. -/
def matchExportAt (l : List Char) : Option ℕ :=
  let pre := "Repository data export took ".data
  if List.isPrefixOf pre l then
    let p := StrUtil.takeDigits (l.drop pre.length)
    if p.1.isEmpty then none
    else if List.isPrefixOf "ms".data p.2 then some (StrUtil.digitsToNat p.1)
    else none
  else none

def searchExportList : List Char → Option ℕ
  | [] => none
  | c :: t =>
    match matchExportAt (c :: t) with
    | some r => some r
    | none => searchExportList t

def searchExport (s : String) : Option ℕ :=
  searchExportList s.data

def isRunningMsg (s : String) : Bool := strContains s "Process status: RUNNING"

def isSuspendedMsg (s : String) : Bool := strContains s "Process status: SUSPENDED"

/-- State of the suspend/resume detection loop. -/
structure ResumeState where
  seenFirstRunning : Bool
  inResume : Bool
  curStart : ℚ
  curExport : ℚ
  suspends : List ℚ
  overheads : List ResumeOverhead
deriving Repr, DecidableEq

def initResumeState : ResumeState := ⟨false, false, 0, 0, [], []⟩

/-- One iteration of the resume-detection loop of `analyze`. -/
def resumeStep (st : ResumeState) (e : LogEntry) : ResumeState :=
  if ¬ st.seenFirstRunning ∧ isRunningMsg e.msg then
    { st with seenFirstRunning := true }
  else if isSuspendedMsg e.msg then
    { st with suspends := st.suspends ++ [e.ts], inResume := false }
  else if st.seenFirstRunning ∧ strContains e.msg "Storing policy" ∧ ¬ st.inResume then
    { st with inResume := true, curStart := e.ts, curExport := 0 }
  else if st.inResume then
    match searchExport e.msg with
    | some n => { st with curExport := (n : ℚ) / 1000 }
    | none =>
      if isRunningMsg e.msg then
        { st with
          overheads := st.overheads ++
            [⟨st.curStart, st.curExport, (e.ts - st.curStart) - st.curExport⟩]
          inResume := false
          curExport := 0 }
      else st
  else st

def runResume (l : List LogEntry) : ResumeState :=
  l.foldl resumeStep initResumeState

/-- The first-occurrence phase-boundary timestamps of `analyze`
(`helm_end` is the last occurrence: the source overwrites it). -/
structure Markers where
  initS : Option ℚ
  bootstrapS : Option ℚ
  awsS : Option ℚ
  micaS : Option ℚ
  helmS : Option ℚ
  helmE : Option ℚ
  firstSuspend : Option ℚ
  totalEnd : Option ℚ
deriving Repr, DecidableEq

def isMicaMsg (s : String) : Bool :=
  strContains s "Connecting to" && strContains (lowerStr s) "mica"

def isHelmEndMsg (s : String) : Bool :=
  strContains s "Helm install/upgrade" ||
    (strContains (lowerStr s) "deployed" && strContains s "STATUS")

def isHelmishMsg (s : String) : Bool :=
  strContains (lowerStr s) "helm" || strContains s "Helm"

/-- Marker extraction over the sorted entry list. -/
def computeMarkers (sorted : List LogEntry) : Markers :=
  let micaS := (sorted.find? (fun e => isMicaMsg e.msg)).map LogEntry.ts
  { initS := (sorted.find? (fun e => strContains e.msg "Storing policy")).map LogEntry.ts
    bootstrapS :=
      (sorted.find? (fun e => strContains e.msg "Exporting the repository data")).map LogEntry.ts
    awsS := (sorted.find? (fun e => strContains e.msg "Assuming role")).map LogEntry.ts
    micaS := micaS
    helmS :=
      match micaS with
      | none => none
      | some m => (sorted.find? (fun e => m < e.ts ∧ isHelmishMsg e.msg)).map LogEntry.ts
    helmE := ((sorted.filter (fun e => isHelmEndMsg e.msg)).getLast?).map LogEntry.ts
    firstSuspend := (sorted.find? (fun e => isSuspendedMsg e.msg)).map LogEntry.ts
    totalEnd := (sorted.getLast?).map LogEntry.ts }

/-- The marker timestamps that are present, in the canonical boundary
order Init, Bootstrap, AWS, Mica, Helm-start, Helm-end, first-suspend,
overall-end. -/
def markerList (mk : Markers) : List ℚ :=
  [mk.initS, mk.bootstrapS, mk.awsS, mk.micaS, mk.helmS, mk.helmE,
    mk.firstSuspend, mk.totalEnd].filterMap id

/-- The phase-construction block of `analyze` (source lines 197-212). -/
def buildPhases (mk : Markers) : List Phase :=
  (match mk.initS, mk.bootstrapS with
   | some iv, some bv => [⟨"Init", iv, bv⟩]
   | _, _ => []) ++
  (match mk.bootstrapS, mk.awsS with
   | some bv, some av => [⟨"Bootstrap", bv, av⟩]
   | _, _ => []) ++
  (match mk.awsS, mk.micaS with
   | some av, some mv => [⟨"AWS", av, mv⟩]
   | _, _ => []) ++
  (match mk.micaS with
   | some mv =>
     let hsv := mk.helmS.getD mv
     if hsv ≠ mv then [⟨"Config/Mica", mv, hsv⟩] else []
   | none => []) ++
  (match mk.helmE, mk.firstSuspend, mk.helmS with
   | some hev, some _, some hsv => [⟨"Helm", hsv, hev⟩]
   | _, _, _ => []) ++
  (match mk.firstSuspend, mk.totalEnd with
   | some fsv, some tev => [⟨"Suspended", fsv, tev⟩]
   | _, _ => [])

/-- `timestamps.sort(key=lambda x: x[0])`: stable sort by timestamp. -/
def sortLog (entries : List LogEntry) : List LogEntry :=
  List.insertionSort (fun a b => a.ts ≤ b.ts) entries

/-- The two invariants of claim C2 that the code maintains. -/
def overheadOK (ro : ResumeOverhead) : Prop :=
  0 ≤ ro.repo_export_s ∧ 0 ≤ ro.total_s

/-- Loop invariant of the resume-detection fold, relative to the
entries still to be processed. -/
def stateOK (st : ResumeState) (rest : List LogEntry) : Prop :=
  0 ≤ st.curExport ∧
  (st.inResume = true → ∀ e ∈ rest, st.curStart ≤ e.ts) ∧
  ∀ ro ∈ st.overheads, overheadOK ro

/-- `analyze` of `orchestration.py`, from the lexed entries. -/
def analyze (entries : List LogEntry) : OrchestrationResult :=
  if entries.isEmpty then OrchestrationResult.emptyResult
  else
    let sorted := sortLog entries
    let st := runResume sorted
    { phases := buildPhases (computeMarkers sorted)
      children := sorted.filterMap (fun e => searchChild e.msg)
      suspend_times := st.suspends
      resume_overheads := st.overheads
      total_start := (sorted.head?).map LogEntry.ts
      total_end := (sorted.getLast?).map LogEntry.ts }

end Orchestration

/-! ### Correlator (`analyzers/correlator.py`)

`correlate` is a pure function of the five analyzer results.  Finding
texts interpolate fixed-point renderings of the numeric values; floats
are exact rationals here, rendered with round-half-to-even as Python's
`format` does.  The finding-7 branch dereferences
`metrics_result.memory` without a guard, so when the cpu and pending
summaries are present but the memory summary is absent the Python
function raises `AttributeError`; that crash is modelled by `none`. -/

namespace Correlator

open TestReports AppLogs Metrics Orchestration

/-- Round to the nearest integer, ties to even (Python float
formatting). -/
def roundHalfEven (q : ℚ) : ℤ :=
  let f := ⌊q⌋
  let r := q - (f : ℚ)
  if r < 1 / 2 then f
  else if 1 / 2 < r then f + 1
  else if f % 2 = 0 then f else f + 1

/-- Python `f"{q:.prec f}"`. -/
def fmtFixed (prec : ℕ) (q : ℚ) : String :=
  let n := roundHalfEven (q * (10 : ℚ) ^ prec)
  if prec = 0 then toString n
  else
    let a := n.natAbs
    let base := (10 : ℕ) ^ prec
    let fpStr := toString (a % base)
    let pad := String.mk (List.replicate (prec - fpStr.length) '0')
    (if n < 0 then "-" else "") ++ toString (a / base) ++ "." ++ pad ++ fpStr

/-- Python `int(q)`: truncation toward zero. -/
def truncQ (q : ℚ) : ℤ := q.num / (q.den : ℤ)

structure Finding where
  rank : ℕ
  title : String
  description : String
  evidence : String
  estimated_savings_s : String
  difficulty : String
  priority : String
deriving Repr, DecidableEq

structure CorrelationResult where
  findings : List Finding
  concord_start_epoch_s : ℚ
  concord_end_epoch_s : ℚ
deriving Repr, DecidableEq

/-- Findings 8 and 9, emitted per warning of the app-log result. -/
def warningFindings (ws : List LogWarning) : List Finding :=
  ws.flatMap (fun w =>
    if w.category = "EffectConsumer queue blocking" then
      [⟨8, "Fix EffectConsumer Queue Blocking",
        toString w.count ++ " warnings where messages blocked the EffectConsumer queue" ++
          (if w.worst_case ≠ "" then ", worst case " ++ w.worst_case else "") ++ ".",
        toString w.count ++ " queue-blocking warnings in application logs.",
        "<2s", "Low", "P3"⟩]
    else if w.category = "Hibernate dialect mismatch" then
      [⟨9, "Fix Hibernate Dialect Mismatch",
        "MariaDB dialect is configured but the database is MySQL 8.0.",
        "Hibernate dialect mismatch warning in application logs.",
        "None directly", "Low", "P3"⟩]
    else [])

/-- Finding 1: Concord resume overhead. -/
def finding1 (orchestration : OrchestrationResult) : List Finding :=
    if orchestration.resume_overheads.isEmpty then []
    else
      let total := orchestration.total_resume_overhead_s
      let n := orchestration.resume_overheads.length
      let per : ℚ := if n = 0 then 0 else total / (n : ℚ)
      [⟨1, "Reduce Concord Resume Overhead",
        "Each time the Concord parent resumes to check a child process, it redundantly " ++
          "re-exports the repository and re-resolves dependencies (~" ++ fmtFixed 0 per ++
          "s per resume). With " ++ toString n ++
          " sequential child checks, this wastes ~" ++ fmtFixed 0 total ++ "s.",
        "Concord logs show repo export + dependency resolution repeated on each of the " ++
          toString n ++ " resume cycles.",
        fmtFixed 0 total ++ "s", "Low", "P1"⟩]

/-- Finding 2: sequential child checking. -/
def finding2 (orchestration : OrchestrationResult) : List Finding :=
    if 1 < orchestration.children.length ∧ 1 < orchestration.resume_count then
      let extra := orchestration.total_resume_overhead_s / (orchestration.resume_count : ℚ)
      [⟨2, "Parallelize Concord Child Checking",
        "The Concord parent checks children sequentially: it resumes for one child, " ++
          "confirms completion, re-suspends, then later resumes for the next. " ++
          "If all children are checked in a single resume, extra suspend/resume " ++
          "cycles (with ~" ++ fmtFixed 0 extra ++ "s overhead each) are eliminated.",
        toString orchestration.resume_count ++
          " separate suspend/resume cycles in orchestration logs, " ++
          "children already running in parallel.",
        "30-45s", "Medium", "P1"⟩]
    else []

/-- Finding 3: K8s pod startup latency. -/
def finding3 (dispatcher : DispatcherTimeline) : List Finding :=
    if dispatcher.job_id ≠ "" then
      let compute := dispatcher.total_duration_s
      [⟨3, "Reduce K8s Pod Startup Latency",
        "Dispatcher job " ++ dispatcher.job_id ++
          " pod took significant time from scheduling to first log, but only " ++
          fmtFixed 0 compute ++ "s of actual compute. " ++
          "This overhead suggests opportunity in pod pre-warming or smaller container images.",
        "Job " ++ dispatcher.job_id ++ " pod: " ++ fmtFixed 0 compute ++ "s compute time.",
        "60-120s", "Medium", "P1"⟩]
    else []

/-- Finding 4: Kono sequential ForkJoinPools. -/
def finding4 (kono : TestSuiteResult) : List Finding :=
    if 2 ≤ kono.pools.length then
      let sp := sortedPoolsByStart kono
      match sp.head?, sp.getLast? with
      | some p0, some later =>
        if p0.stop_ms < later.start_ms then
          let waste := later.wall_clock_s
          [⟨4, "Run Kono ForkJoinPools Concurrently",
            p0.name ++ " (" ++ toString p0.count ++ " tests, " ++
              fmtFixed 1 p0.wall_clock_s ++ "s) and " ++ later.name ++ " (" ++
              toString later.count ++ " tests, " ++ fmtFixed 1 later.wall_clock_s ++
              "s) execute sequentially. Running them concurrently would save ~" ++
              fmtFixed 0 waste ++ "s.",
            later.name ++ " starts after " ++ p0.name ++ " ends. " ++ later.name ++
              " parallelism: " ++ fmtFixed 2 later.parallelism ++ "x.",
            "~" ++ fmtFixed 0 waste ++ "s", "Low", "P2"⟩]
        else []
      | _, _ => []
    else []

/-- Finding 5: Substantiate setup phase serialization. -/
def finding5 (substantiate : TestSuiteResult) : List Finding :=
    match substantiate.setup_phase_analysis 340 with
    | none => []
    | some setup =>
      [⟨5, "Parallelize Substantiate Setup Chain",
        "The first " ++ fmtFixed 0 setup.setup_duration_s ++
          "s of Substantiate execution is a mostly-sequential setup chain. Only " ++
          toString setup.setup_tests ++ " tests run, while " ++
          toString setup.idle_workers ++ " workers sit idle.",
        "Only " ++ toString setup.setup_tests ++ " tests in first " ++
          fmtFixed 0 setup.setup_duration_s ++ "s. Workers " ++
          String.intercalate ", " (setup.idle_worker_names.take 3) ++
          "... idle for 300+ seconds.",
        "100-170s", "Medium", "P2"⟩]

/-- Finding 6: Substantiate polling interval. -/
def finding6 (substantiate : TestSuiteResult) : List Finding :=
    match substantiate.polling_analysis with
    | none => []
    | some polling =>
      if 50 < polling.polling_pct then
        [⟨6, "Reduce Substantiate Polling Interval",
          "Substantiate aggregate runtime is dominated by long-running compute waits; " ++
            "an inferred " ++ fmtFixed 1 polling.polling_pct ++
            "% of aggregate time is in long-running (likely polling) tests. " ++
            "Precise polling-vs-non-polling attribution is not fully observable from fixtures alone. " ++
            "Reducing poll interval from 20s to 5s would cut average overshoot.",
          fmtFixed 1 polling.polling_pct ++ "% of " ++ fmtFixed 1 polling.aggregate_min ++
            " min aggregate time in long-running tests (inferred heuristic: tests >16s " ++
            "classified as polling-dominated).",
          "30-60s", "Low", "P2"⟩]
      else []

/-- Finding 7: application headroom.  The branch reads
`metrics_result.memory.avg_val` without a presence check, so a missing
memory summary is an uncaught `AttributeError` (`none` here). -/
def finding7 (metrics_result : MetricsResult) : Option (List Finding) :=
    match metrics_result.cpu, metrics_result.hikaricp_pending with
    | some cpu, some _ =>
      match metrics_result.memory with
      | none => none
      | some mem =>
        let activeMax : ℤ :=
          match metrics_result.hikaricp_active with
          | some act => truncQ act.max_val
          | none => 0
        some
          [⟨7, "Application Has Massive Resource Headroom",
            "CPU peaked at " ++ fmtFixed 2 cpu.max_val ++
              " cores during warmup, averaged " ++ fmtFixed 1 cpu.avg_val ++
              " during tests. HikariCP max " ++ toString activeMax ++
              " active connections, zero pending. The application is NOT the bottleneck.",
            "CPU avg " ++ fmtFixed 2 cpu.avg_val ++ " cores, memory stable at ~" ++
              fmtFixed 1 (mem.avg_val / 1000000000) ++
              "GB, zero HikariCP pending connections.",
            "N/A", "N/A", "Informational"⟩]
    | _, _ => some []

/-- Finding 10: flaky test. -/
def finding10 (substantiate : TestSuiteResult) : List Finding :=
    match substantiate.failed_tests with
    | [] => []
    | t :: _ =>
      [⟨10, "Investigate Flaky Substantiate \x22" ++ t.name.take 30 ++ "...\x22 Test",
        "One test fails on its first attempt, wasting " ++
          fmtFixed 1 ((t.duration : ℚ) / 1000) ++ "s.",
        "1 failure out of " ++ toString substantiate.total_tests ++ " tests.",
        "~" ++ toString (Int.fdiv t.duration 1000) ++ "s when it flakes",
        "Medium", "P3"⟩]

/-- `correlate` of `correlator.py`: the findings are appended in fixed
rank order; the only crash point is finding 7's memory access. -/
def correlate (orchestration : OrchestrationResult) (kono : TestSuiteResult)
    (substantiate : TestSuiteResult) (app_logs : AppLogsResult)
    (dispatcher : DispatcherTimeline) (metrics_result : MetricsResult) :
    Option CorrelationResult :=
  match finding7 metrics_result with
  | none => none
  | some f7 =>
    some
      { findings := finding1 orchestration ++ finding2 orchestration ++
          finding3 dispatcher ++ finding4 kono ++ finding5 substantiate ++
          finding6 substantiate ++ f7 ++ warningFindings app_logs.warnings ++
          finding10 substantiate
        concord_start_epoch_s := orchestration.total_start.getD 0
        concord_end_epoch_s := orchestration.total_end.getD 0 }

end Correlator

/-! ### Concrete inputs used by witnesses and counterexamples -/

namespace Ex

open TestReports

def tA : TestInfo := ⟨"a", "u1", "passed", 0, 100000, 100000, "w1", "Pool-1", false, 0⟩

def tB : TestInfo := ⟨"b", "u2", "passed", 50000, 150000, 100000, "w2", "Pool-2", false, 0⟩

def pool1 : PoolStats := ⟨"Pool-1", [tA]⟩

def pool2 : PoolStats := ⟨"Pool-2", [tB]⟩

/-- Two pools that overlap in time. -/
def suiteOverlap : TestSuiteResult :=
  ⟨"Kono", [tA, tB], [("Pool-1", pool1), ("Pool-2", pool2)]⟩

/-- A single test whose reported duration (5000 ms) exceeds its
wall-clock span (1000 ms), as retries allow. -/
def tSolo : TestInfo := ⟨"x", "u", "passed", 0, 1000, 5000, "w", "default", false, 0⟩

def poolSolo : PoolStats := ⟨"default", [tSolo]⟩

def tTiny1 : TestInfo := ⟨"p", "u3", "passed", 0, 1000, 1, "w", "default", false, 0⟩

def tTiny2 : TestInfo := ⟨"q", "u4", "passed", 500, 1500, 1, "w", "default", false, 0⟩

/-- Overlapping tests whose durations are far below their spans. -/
def poolTiny : PoolStats := ⟨"default", [tTiny1, tTiny2]⟩

def tW1 : TestInfo := ⟨"m", "u5", "passed", 0, 1000, 1000, "w", "default", false, 0⟩

def tW2 : TestInfo := ⟨"n", "u6", "passed", 500, 1500, 1000, "w", "default", false, 0⟩

/-- Overlapping tests with `duration = stop - start`. -/
def poolW : PoolStats := ⟨"default", [tW1, tW2]⟩

def suiteOne : TestSuiteResult := ⟨"S", [tSolo], [("default", poolSolo)]⟩

/-- A well-shaped success envelope whose single `webapp` series carries
one sample pair with the numeric value 3/2. -/
def envGood : Metrics.JVal :=
  Metrics.JVal.jobj
    [("status", Metrics.JVal.jstr "success"),
     ("data", Metrics.JVal.jobj
       [("result", Metrics.JVal.jarr
         [Metrics.JVal.jobj
           [("metric", Metrics.JVal.jobj
             [("container", Metrics.JVal.jstr "webapp")]),
            ("values", Metrics.JVal.jarr
              [Metrics.JVal.jarr
                [Metrics.JVal.jnum (Metrics.PyF.fin 0),
                 Metrics.JVal.jnum (Metrics.PyF.fin (3 / 2))]])]])])]

/-- A parseable metrics file whose decoded value is the empty JSON
list: it has no numeric samples, yet `data.get("status")` raises
`AttributeError` on it. -/
def jsonList : Metrics.JVal := Metrics.JVal.jarr []

/-- A parseable success envelope whose `data` field is an explicit JSON
`null`: `.get("data", {})` returns the `null` (the default applies only
to a missing key) and `.get("result")` on it raises. -/
def jsonNullData : Metrics.JVal :=
  Metrics.JVal.jobj
    [("status", Metrics.JVal.jstr "success"),
     ("data", Metrics.JVal.jnull)]

/-- A dispatcher log whose earliest "Running job" line has no job id,
while a later line does. -/
def envDisp : AppLogs.LokiEnvelope :=
  ⟨"success", [⟨"stdout", "pod-1",
    [(2, "Running job 42 started"), (1, "Running jobs pending")]⟩]⟩

/-- An orchestration log whose parsed export duration (5000 ms) exceeds
the measured resume window (2 s). -/
def log2 : List Orchestration.LogEntry :=
  [⟨0, "INFO", "Process status: RUNNING"⟩,
   ⟨1, "INFO", "Storing policy files"⟩,
   ⟨2, "INFO", "Repository data export took 5000ms"⟩,
   ⟨3, "INFO", "Process status: RUNNING"⟩]

/-- An orchestration log whose bootstrap marker precedes the init
marker in time. -/
def log3 : List Orchestration.LogEntry :=
  [⟨0, "INFO", "Exporting the repository data"⟩,
   ⟨1, "INFO", "Storing policy"⟩]

/-- An orchestration log with all phase markers in canonical order. -/
def logOrdered : List Orchestration.LogEntry :=
  [⟨0, "INFO", "Storing policy"⟩,
   ⟨1, "INFO", "Exporting the repository data"⟩,
   ⟨2, "INFO", "Assuming role arn"⟩,
   ⟨3, "INFO", "Connecting to the Mica server"⟩,
   ⟨4, "INFO", "Running helm install now"⟩,
   ⟨5, "INFO", "Helm install/upgrade done"⟩,
   ⟨6, "INFO", "Process status: SUSPENDED"⟩]

def emptySuite : TestReports.TestSuiteResult := ⟨"S", [], []⟩

/-- A cpu summary averaging 5 cores: far from the headroom threshold. -/
def cpuBad : Metrics.MetricSummary := ⟨"CPU", 0, 5, 5, "cores"⟩

/-- A pending-connections summary whose max is 3, not 0. -/
def pendBad : Metrics.MetricSummary := ⟨"HikariCP Pending", 0, 3, 1, "connections"⟩

def memOk : Metrics.MetricSummary := ⟨"Memory", 0, 2000000000, 1500000000, "bytes"⟩

/-- Metrics with cpu and pending summaries present but both threshold
conditions violated. -/
def metricsBad : Metrics.MetricsResult :=
  ⟨some cpuBad, some memOk, none, some pendBad, none, none, none, none, none, none⟩

/-- A webapp log whose single matching line embeds two durations; only
the first (1.5s) is seen by the scanner although 9.9s is larger. -/
def env7 : AppLogs.LokiEnvelope :=
  ⟨"success", [⟨"app", "",
    [(0, "WARN EffectConsumer blocked 1.5s then 9.9s")]⟩]⟩

/-- A webapp log with seven queue-blocking WARN lines (the scenario of
the spec), one of which embeds a 3.2s duration. -/
def env7W : AppLogs.LokiEnvelope :=
  ⟨"success", [⟨"app", "",
    [(0, "WARN EffectConsumer queue blocked 1"),
     (1, "WARN EffectConsumer queue blocked 2"),
     (2, "WARN EffectConsumer queue blocked for 3.2s"),
     (3, "WARN EffectConsumer queue blocked 4"),
     (4, "WARN EffectConsumer queue blocked 5"),
     (5, "WARN EffectConsumer queue blocked 6"),
     (6, "WARN EffectConsumer queue blocked 7")]⟩]⟩

end Ex

/-! ### Properties of the test-timeline analyzer -/

section TestReportsProofs

open TestReports

instance : Std.Antisymm (fun x1 x2 : ℤ => x1 ≤ x2) :=
  ⟨by intro a b h h'; exact le_antisymm h h'⟩

lemma listMinSpec {l : List ℤ} {a : ℤ} (h : l.min? = some a) :
    a ∈ l ∧ ∀ b ∈ l, a ≤ b :=
  (List.min?_eq_some_iff (fun x => le_refl x) (fun x y => min_choice x y)
    (fun _ _ _ => le_min_iff)).mp h

lemma listMaxSpec {l : List ℤ} {a : ℤ} (h : l.max? = some a) :
    a ∈ l ∧ ∀ b ∈ l, b ≤ a :=
  (List.max?_eq_some_iff (fun x => le_refl x) (fun x y => max_choice x y)
    (fun _ _ _ => max_le_iff)).mp h

lemma overlapT_symm : Symmetric overlapT := by
  intro u v h
  unfold overlapT at h ⊢
  rwa [max_comm, min_comm]

lemma overlap_left_span {u v : TestInfo} (h : overlapT u v) : u.start ≤ u.stop :=
  le_trans (le_max_left _ _) (le_trans h (min_le_left _ _))

lemma overlap_right_span {u v : TestInfo} (h : overlapT u v) : v.start ≤ v.stop :=
  le_trans (le_max_right _ _) (le_trans h (min_le_right _ _))

/-- In a pool of at least two pairwise-overlapping tests, every test
has a nonnegative span. -/
lemma spans_nonneg {l : List TestInfo} (h : l.Pairwise overlapT)
    (hlen : 2 ≤ l.length) : ∀ u ∈ l, u.start ≤ u.stop := by
  rcases l with _ | ⟨a, _ | ⟨b, rest⟩⟩
  · simp at hlen
  · simp at hlen
  · intro u hu
    have h1 := List.pairwise_cons.mp h
    have hab : overlapT a b := h1.1 b (by simp)
    have h2 := List.pairwise_cons.mp h1.2
    rcases List.mem_cons.mp hu with rfl | hu'
    · exact overlap_left_span hab
    rcases List.mem_cons.mp hu' with rfl | hu''
    · exact overlap_right_span hab
    · exact overlap_right_span (h2.1 u hu'')

/-- The hull of pairwise-overlapping intervals is at most the sum of
their lengths. -/
lemma hull_le_sum {l : List TestInfo} (hp : l.Pairwise overlapT) (hne : l ≠ []) :
    maxStop l - minStart l ≤ (l.map (fun t => t.stop - t.start)).sum := by
  rcases l with _ | ⟨x, _ | ⟨y, rest⟩⟩
  · exact absurd rfl hne
  · simp [minStart, maxStop, List.min?_cons', List.max?_cons']
  · set L := x :: y :: rest with hL
    have hneL : (L.map TestInfo.start) ≠ [] := by simp [hL]
    obtain ⟨ms, hms⟩ : ∃ a, (L.map TestInfo.start).min? = some a := by
      cases hm : (L.map TestInfo.start).min? with
      | none => exact absurd (List.min?_eq_none_iff.mp hm) hneL
      | some a => exact ⟨a, rfl⟩
    obtain ⟨MS, hMS⟩ : ∃ a, (L.map TestInfo.stop).max? = some a := by
      cases hm : (L.map TestInfo.stop).max? with
      | none => simp [hL] at hm
      | some a => exact ⟨a, rfl⟩
    obtain ⟨hmsMem, hmsLe⟩ := listMinSpec hms
    obtain ⟨hMSMem, hMSLe⟩ := listMaxSpec hMS
    obtain ⟨t1, ht1Mem, ht1⟩ := List.mem_map.mp hmsMem
    obtain ⟨t2, ht2Mem, ht2⟩ := List.mem_map.mp hMSMem
    have hnn : ∀ u ∈ L, u.start ≤ u.stop := spans_nonneg hp (by simp [hL])
    have hnn' : ∀ z ∈ L.map (fun t => t.stop - t.start), 0 ≤ z := by
      intro z hz
      obtain ⟨u, huMem, hu⟩ := List.mem_map.mp hz
      have := hnn u huMem
      omega
    unfold maxStop minStart
    rw [hms, hMS]
    simp only [Option.getD_some]
    rw [← ht1, ← ht2]
    by_cases heq : t1 = t2
    · subst heq
      have hmem : t1.stop - t1.start ∈ L.map (fun t => t.stop - t.start) :=
        List.mem_map.mpr ⟨t1, ht1Mem, rfl⟩
      have := List.single_le_sum hnn' _ hmem
      omega
    · have hover : overlapT t1 t2 := hp.forall overlapT_symm ht1Mem ht2Mem heq
      have h21 : t2.start ≤ t1.stop :=
        le_trans (le_max_right _ _) (le_trans hover (min_le_left _ _))
      obtain ⟨l1, l2, hsplit⟩ := List.append_of_mem ht1Mem
      have ht2' : t2 ∈ l1 ∨ t2 ∈ l2 := by
        rw [hsplit] at ht2Mem
        rcases List.mem_append.mp ht2Mem with hm | hm
        · exact Or.inl hm
        · rcases List.mem_cons.mp hm with rfl | hm
          · exact absurd rfl heq
          · exact Or.inr hm
      have hsub1 : ∀ z ∈ l1.map (fun t => t.stop - t.start), 0 ≤ z := by
        intro z hz
        obtain ⟨u, huMem, hu⟩ := List.mem_map.mp hz
        exact hu ▸ hnn' _ (List.mem_map.mpr ⟨u, by rw [hsplit]; exact List.mem_append_left _ huMem, rfl⟩)
      have hsub2 : ∀ z ∈ l2.map (fun t => t.stop - t.start), 0 ≤ z := by
        intro z hz
        obtain ⟨u, huMem, hu⟩ := List.mem_map.mp hz
        refine hu ▸ hnn' _ (List.mem_map.mpr ⟨u, ?_, rfl⟩)
        rw [hsplit]
        exact List.mem_append_right _ (List.mem_cons_of_mem _ huMem)
      have hs1 : (0 : ℤ) ≤ (l1.map (fun t => t.stop - t.start)).sum :=
        List.sum_nonneg hsub1
      have hs2 : (0 : ℤ) ≤ (l2.map (fun t => t.stop - t.start)).sum :=
        List.sum_nonneg hsub2
      rw [hsplit, List.map_append, List.sum_append, List.map_cons, List.sum_cons]
      have hspan2 : t2.start ≤ t2.stop := hnn t2 ht2Mem
      rcases ht2' with hm | hm
      · have hle : t2.stop - t2.start ≤ (l1.map (fun t => t.stop - t.start)).sum :=
          List.single_le_sum hsub1 _ (List.mem_map.mpr ⟨t2, hm, rfl⟩)
        linarith
      · have hle : t2.stop - t2.start ≤ (l2.map (fun t => t.stop - t.start)).sum :=
          List.single_le_sum hsub2 _ (List.mem_map.mpr ⟨t2, hm, rfl⟩)
        linarith

lemma length_filter_partition (l : List TestInfo) (c : ℚ) :
    (l.filter (fun t => (t.start : ℚ) < c)).length
      + (l.filter (fun t => c ≤ (t.start : ℚ))).length = l.length := by
  induction l with
  | nil => simp
  | cons t ts ih =>
    rcases lt_or_le (t.start : ℚ) c with h | h
    · have h' : ¬ c ≤ (t.start : ℚ) := not_le.mpr h
      simp [List.filter_cons, h, h']
      omega
    · have h' : ¬ (t.start : ℚ) < c := not_lt.mpr h
      simp [List.filter_cons, h, h']
      omega

/-- Claim C6: for every suite with at least one test and every
threshold value, `setup_phase_analysis` splits the tests into a
partition: `setup_tests + main_tests = total_tests`. -/
theorem setup_phase_partition (r : TestSuiteResult) (th : ℚ) (h : r.tests ≠ []) :
    ∃ s, r.setup_phase_analysis th = some s ∧
      s.setup_tests + s.main_tests = r.total_tests := by
  have hne : r.tests.isEmpty = false := by simpa [List.isEmpty_iff] using h
  unfold TestSuiteResult.setup_phase_analysis
  rw [if_neg (by simp [hne])]
  refine ⟨_, rfl, ?_⟩
  exact length_filter_partition r.tests _

/-- Witness for C6 at a concrete one-test suite. -/
theorem setup_phase_partition_witness :
    ∃ s, Ex.suiteOne.setup_phase_analysis 340 = some s ∧
      s.setup_tests + s.main_tests = Ex.suiteOne.total_tests :=
  setup_phase_partition Ex.suiteOne 340 (by decide)

/-- Claim C4 (code-bug exhibit): `sequential_pool_waste_s` adds the
later pool's wall clock even when the two pools overlap in time.  At
this input Pool-2 starts (50 s) before Pool-1 stops (100 s), yet the
computed waste is Pool-2's full 100 s wall clock instead of 0. -/
theorem sequential_pool_waste_overlap_bug :
    Ex.pool2.start_ms < Ex.pool1.stop_ms ∧
      Ex.suiteOverlap.sequential_pool_waste_s = 100 := by
  constructor
  · decide
  · norm_num [Ex.suiteOverlap, Ex.pool1, Ex.pool2, Ex.tA, Ex.tB,
      TestSuiteResult.sequential_pool_waste_s, sortedPoolsByStart,
      List.insertionSort, List.orderedInsert, PoolStats.start_ms,
      PoolStats.wall_clock_s, minStart, maxStop, List.min?_cons', List.max?_cons']

/-- Claim C5 counterexample: a single-test pool with positive wall
clock reports `duration / span` (here 5.0, because the 5000 ms duration
exceeds the 1000 ms span), not 1.0; and a pool of overlapping tests
whose durations are small reports parallelism below 1. -/
theorem parallelism_claim_cex :
    (0 < Ex.poolSolo.wall_clock_s ∧ Ex.poolSolo.parallelism ≠ 1) ∧
      (overlapT Ex.tTiny1 Ex.tTiny2 ∧ Ex.poolTiny.parallelism < 1) := by
  refine ⟨⟨?_, ?_⟩, by decide, ?_⟩
  · norm_num [Ex.poolSolo, Ex.tSolo, PoolStats.wall_clock_s, minStart, maxStop,
      List.min?_cons', List.max?_cons']
  · norm_num [Ex.poolSolo, Ex.tSolo, PoolStats.parallelism, PoolStats.wall_clock_s,
      PoolStats.aggregate_s, minStart, maxStop, List.min?_cons', List.max?_cons']
  · norm_num [Ex.poolTiny, Ex.tTiny1, Ex.tTiny2, PoolStats.parallelism,
      PoolStats.wall_clock_s, PoolStats.aggregate_s, minStart, maxStop,
      List.min?_cons', List.max?_cons']

/-- Claim C5 (amended): when every test's duration equals its
`stop - start` span, pairwise-overlapping tests with positive wall
clock have parallelism ≥ 1; and a single-test pool reports
`duration / span` when its span is nonzero and 0 otherwise (hence 1.0
exactly when the duration equals the span). -/
theorem parallelism_amended :
    (∀ p : PoolStats, (∀ t ∈ p.tests, t.duration = t.stop - t.start) →
        p.tests.Pairwise overlapT → 0 < p.wall_clock_s → 1 ≤ p.parallelism) ∧
      ∀ (nm : String) (t : TestInfo),
        (PoolStats.mk nm [t]).parallelism =
          if t.stop - t.start = 0 then 0
          else (t.duration : ℚ) / ((t.stop - t.start : ℤ) : ℚ) := by
  constructor
  · intro p hdur hover hwall
    have hne : p.tests ≠ [] := by
      intro hnil
      rw [PoolStats.wall_clock_s] at hwall
      simp [hnil] at hwall
    have hEmpty : p.tests.isEmpty = false := by simpa [List.isEmpty_iff] using hne
    unfold PoolStats.parallelism
    rw [if_neg hwall.ne']
    rw [le_div_iff₀ hwall, one_mul]
    unfold PoolStats.wall_clock_s PoolStats.aggregate_s
    rw [if_neg (by simp [hEmpty])]
    rw [div_le_div_iff_of_pos_right (by norm_num : (0:ℚ) < 1000)]
    rw [Int.cast_le]
    have hmap : p.tests.map TestInfo.duration
        = p.tests.map (fun t => t.stop - t.start) := List.map_congr_left hdur
    rw [hmap]
    exact hull_le_sum hover hne
  · intro nm t
    have hmin : minStart [t] = t.start := rfl
    have hmax : maxStop [t] = t.stop := rfl
    by_cases h : t.stop - t.start = 0
    · simp [PoolStats.parallelism, PoolStats.wall_clock_s, PoolStats.aggregate_s,
        hmin, hmax, h]
    · have hcast : ((t.stop - t.start : ℤ) : ℚ) ≠ 0 := by exact_mod_cast h
      have hwall : ¬ ((t.stop - t.start : ℤ) : ℚ) / 1000 = 0 :=
        div_ne_zero hcast (by norm_num)
      simp only [PoolStats.parallelism, PoolStats.wall_clock_s, PoolStats.aggregate_s,
        hmin, hmax, List.isEmpty_cons, if_neg h, List.map_cons, List.map_nil,
        List.sum_cons, List.sum_nil, Bool.false_eq_true, if_false, hwall]
      push_cast
      field_simp

/-- Witness for the amended C5 at concrete pools: the overlapping
equal-span pool has parallelism ≥ 1 (here 4/3); the lone test of
`tSolo` yields 5000/1000 = 5. -/
theorem parallelism_amended_witness :
    1 ≤ Ex.poolW.parallelism ∧ (PoolStats.mk "solo" [Ex.tSolo]).parallelism = 5 :=
  ⟨parallelism_amended.1 Ex.poolW (by decide) (by decide)
      (by norm_num [Ex.poolW, Ex.tW1, Ex.tW2, TestReports.PoolStats.wall_clock_s,
        TestReports.minStart, TestReports.maxStop, List.min?_cons', List.max?_cons']),
   (parallelism_amended.2 "solo" Ex.tSolo).trans (by norm_num [Ex.tSolo])⟩

end TestReportsProofs

/-! ### Properties of the metrics summarizer -/

section MetricsProofs

open Metrics

/-- `summarize` on decoded content, unfolded once. -/
lemma summarize_content (v : JVal) (name unit : String) :
    summarize (MetricFile.content v) name unit =
      match pyGetD v "status" with
      | none => none
      | some st =>
        if isStr st "success" then
          match extractNums v with
          | none => none
          | some nums =>
            if nums.isEmpty then some none
            else
              some (some
                { name := name
                  min_val := pfListMin nums
                  max_val := pfListMax nums
                  avg_val := pfAvg nums
                  unit := unit })
        else some none := rfl

/-- Claim C8 counterexample: two parseable metric files without any
numeric sample on which `_summarize` raises instead of returning
`None`: the decoded empty JSON list (`data.get("status")` raises
`AttributeError` on a list) and a success envelope whose `data` field
is an explicit JSON `null` (`.get("data", {})` returns the `null` —
the default covers only a missing key — and `None.get("result")`
raises).  `none` at the outer layer is the raise. -/
theorem summarize_claim_cex :
    summarize (MetricFile.content Ex.jsonList) "CPU" "cores" = none ∧
    summarize (MetricFile.content Ex.jsonNullData) "CPU" "cores" = none :=
  ⟨rfl, rfl⟩

/-- Claim C8 (amended): the summarizer returns `None` without raising
when the file is absent or fails to decode (including the empty file)
and when the decoded value is a dict whose status is not `"success"`;
when sample extraction succeeds on a success envelope it returns `None`
exactly when no numeric (non-NaN) sample exists and a summary exactly
when one does.  The original claim's universal no-raise guarantee is
false: on parseable but ill-shaped JSON (a top-level list, a `null`
`data` field, non-dict result entries, non-pair value entries) the
summarizer raises even though no numeric sample exists (see the
counterexample). -/
theorem summarize_optional_amended (f : MetricFile) (name unit : String) :
    (f = MetricFile.absent → summarize f name unit = some none) ∧
    (f = MetricFile.badJson → summarize f name unit = some none) ∧
    (∀ v st, f = MetricFile.content v → pyGetD v "status" = some st →
      isStr st "success" = false → summarize f name unit = some none) ∧
    (∀ s, summarize f name unit = some (some s) →
      ∃ v nums, f = MetricFile.content v ∧ extractNums v = some nums ∧
        nums ≠ []) ∧
    (∀ v st nums, f = MetricFile.content v → pyGetD v "status" = some st →
      isStr st "success" = true → extractNums v = some nums →
      (summarize f name unit = some none ↔ nums = []) ∧
      (nums ≠ [] → summarize f name unit =
        some (some
          { name := name
            min_val := pfListMin nums
            max_val := pfListMax nums
            avg_val := pfAvg nums
            unit := unit }))) := by
  refine ⟨fun h => by subst h; rfl, fun h => by subst h; rfl, ?_, ?_, ?_⟩
  · rintro v st rfl hst hfalse
    rw [summarize_content, hst]
    simp [hfalse]
  · intro s hs
    cases f with
    | absent => simp [summarize] at hs
    | badJson => simp [summarize] at hs
    | content v =>
      rw [summarize_content] at hs
      generalize hg : pyGetD v "status" = res at hs
      cases res with
      | none => simp at hs
      | some st =>
        cases hsucc : isStr st "success" with
        | false => simp [hsucc] at hs
        | true =>
          simp only [hsucc, if_true] at hs
          generalize hn : extractNums v = nres at hs
          cases nres with
          | none => simp at hs
          | some nums =>
            cases nums with
            | nil => simp at hs
            | cons a t => exact ⟨v, a :: t, rfl, hn, by simp⟩
  · rintro v st nums rfl hst hsucc hn
    constructor
    · rw [summarize_content, hst]
      cases nums with
      | nil => simp [hsucc, hn]
      | cons a t => simp [hsucc, hn]
    · intro hne
      rw [summarize_content, hst]
      cases nums with
      | nil => exact absurd rfl hne
      | cons a t => simp [hsucc, hn]

/-- Witness for the amended C8 at a well-shaped one-sample envelope. -/
theorem summarize_optional_amended_witness :
    summarize (MetricFile.content Ex.envGood) "CPU" "cores" =
      some (some
        { name := "CPU"
          min_val := pfListMin [PyF.fin (3 / 2)]
          max_val := pfListMax [PyF.fin (3 / 2)]
          avg_val := pfAvg [PyF.fin (3 / 2)]
          unit := "cores" }) :=
  ((summarize_optional_amended (MetricFile.content Ex.envGood) "CPU"
      "cores").2.2.2.2 Ex.envGood (JVal.jstr "success") [PyF.fin (3 / 2)]
    rfl rfl rfl rfl).2 (List.cons_ne_nil _ _)

end MetricsProofs

/-! ### Properties of the application-log analyzer -/

section AppLogsProofs

open AppLogs

/-- Claim C10: when the chronologically earliest dispatcher line
containing "Running job" carries no parsable "Running job <digits>"
marker, the job-start scan stops there anyway: the timeline keeps
`job_id = ""` and `compute_start_ns = 0`, whatever later lines say. -/
theorem dispatcher_job_scan_stops_at_first (env : LokiEnvelope)
    (e : ℤ × String × String)
    (hfind : (sortedDispatcherEntries env).find?
      (fun x => strContains x.2.1 "Running job") = some e)
    (hparse : searchRunningJob e.2.1 = none) :
    (analyze_dispatcher_logs env).job_id = "" ∧
      (analyze_dispatcher_logs env).compute_start_ns = 0 := by
  unfold analyze_dispatcher_logs
  by_cases hst : env.status = "success"
  · by_cases hemp : (dispatcherEntries env).isEmpty
    · simp [hst, hemp, DispatcherTimeline.empty]
    · simp [hst, hemp, hfind, hparse]
  · simp [hst, DispatcherTimeline.empty]

/-- Witness for C10: the earliest "Running job" line is malformed
("Running jobs pending"), a later line has a well-formed id, and the
timeline still reports no job. -/
theorem dispatcher_job_scan_stops_at_first_witness :
    (analyze_dispatcher_logs Ex.envDisp).job_id = "" ∧
      (analyze_dispatcher_logs Ex.envDisp).compute_start_ns = 0 :=
  dispatcher_job_scan_stops_at_first Ex.envDisp (1, "Running jobs pending", "stdout")
    (by decide) (by decide)

lemma takeDigits_digits (l : List Char) :
    ∀ c ∈ (StrUtil.takeDigits l).1, c.isDigit = true := by
  induction l with
  | nil => simp [StrUtil.takeDigits]
  | cons a t ih =>
    by_cases h : a.isDigit
    · intro c hc
      simp only [StrUtil.takeDigits, h, if_true] at hc
      rcases List.mem_cons.mp hc with rfl | hc
      · exact h
      · exact ih c hc
    · simp [StrUtil.takeDigits, h]

lemma takeDigits_all (d : List Char) (hd : ∀ c ∈ d, c.isDigit = true) :
    StrUtil.takeDigits d = (d, []) := by
  induction d with
  | nil => rfl
  | cons a t ih =>
    simp [StrUtil.takeDigits, hd a (by simp),
      ih (fun c hc => hd c (by simp [hc]))]

lemma takeDigits_append_dot (d r : List Char) (hd : ∀ c ∈ d, c.isDigit = true) :
    StrUtil.takeDigits (d ++ '.' :: r) = (d, '.' :: r) := by
  induction d with
  | nil =>
    have hdot : ('.' : Char).isDigit = false := by decide
    simp [StrUtil.takeDigits, hdot]
  | cons a t ih =>
    simp [StrUtil.takeDigits, hd a (by simp),
      ih (fun c hc => hd c (by simp [hc]))]

lemma parseFloatQ_mk (d1 d2 : List Char) (h1 : ∀ c ∈ d1, c.isDigit = true)
    (h2 : ∀ c ∈ d2, c.isDigit = true) :
    StrUtil.parseFloatQ (String.mk (d1 ++ '.' :: d2)) = StrUtil.fracVal d1 d2 := by
  unfold StrUtil.parseFloatQ
  rw [show (String.mk (d1 ++ '.' :: d2)).data = d1 ++ '.' :: d2 from rfl]
  rw [takeDigits_append_dot d1 _ h1]
  simp [takeDigits_all d2 h2]

lemma rstripS_group (d1 d2 : List Char) (h2 : ∀ c ∈ d2, c.isDigit = true)
    (hne : d2 ≠ []) :
    StrUtil.rstripS (String.mk ((d1 ++ '.' :: d2) ++ ['s'])) =
      String.mk (d1 ++ '.' :: d2) := by
  obtain ⟨c, cs, hrev⟩ : ∃ c cs, d2.reverse = c :: cs := by
    cases hh : d2.reverse with
    | nil => exact absurd (List.reverse_eq_nil_iff.mp hh) hne
    | cons c cs => exact ⟨c, cs, rfl⟩
  have hcd : c.isDigit = true := by
    refine h2 c ?_
    rw [← List.mem_reverse, hrev]
    exact List.mem_cons_self _ _
  have hcs : ¬ (c = 's') := by
    intro h
    rw [h] at hcd
    exact absurd hcd (by decide)
  have hexp : (d1 ++ '.' :: d2).reverse = c :: (cs ++ '.' :: d1.reverse) := by
    rw [List.reverse_append]
    simp [hrev]
  have key : (((d1 ++ '.' :: d2) ++ ['s']).reverse.dropWhile
      (fun x => x = 's')) = (d1 ++ '.' :: d2).reverse := by
    rw [List.reverse_append]
    simp only [List.reverse_cons, List.reverse_nil, List.nil_append,
      List.singleton_append]
    rw [List.dropWhile_cons]
    rw [if_pos (by decide)]
    rw [hexp, List.dropWhile_cons, if_neg (by simp [hcs])]
  unfold StrUtil.rstripS
  rw [show (String.mk ((d1 ++ '.' :: d2) ++ ['s'])).data
      = (d1 ++ '.' :: d2) ++ ['s'] from rfl]
  rw [key, List.reverse_reverse]

/-- The shape of a `(\d+\.\d+)s` match: nonempty digit groups around
the dot, and the reported value is their exact fraction. -/
def durShape (g : List Char) (v : ℚ) : Prop :=
  ∃ d1 d2 : List Char, g = d1 ++ '.' :: d2 ∧ d1 ≠ [] ∧ d2 ≠ [] ∧
    (∀ c ∈ d1, c.isDigit = true) ∧ (∀ c ∈ d2, c.isDigit = true) ∧
    v = StrUtil.fracVal d1 d2

lemma matchDurAt_shape {l g : List Char} {v : ℚ}
    (h : matchDurAt l = some (g, v)) : durShape g v := by
  unfold matchDurAt at h
  by_cases h1 : (StrUtil.takeDigits l).1.isEmpty
  · simp [h1] at h
  · simp only [h1, Bool.false_eq_true, if_false] at h
    generalize hp2 : (StrUtil.takeDigits l).2 = rest at h
    cases rest with
    | nil => simp at h
    | cons a r2 =>
      by_cases ha : a = '.'
      · subst ha
        by_cases hq : (StrUtil.takeDigits r2).1.isEmpty
        · simp [hq] at h
        · simp only [hq, Bool.false_eq_true, if_false] at h
          generalize hq2 : (StrUtil.takeDigits r2).2 = rest2 at h
          cases rest2 with
          | nil => simp at h
          | cons b r3 =>
            by_cases hb : b = 's'
            · subst hb
              simp only [Option.some.injEq, Prod.mk.injEq] at h
              refine ⟨(StrUtil.takeDigits l).1, (StrUtil.takeDigits r2).1,
                h.1.symm, by simpa [List.isEmpty_iff] using h1,
                by simpa [List.isEmpty_iff] using hq,
                takeDigits_digits l, takeDigits_digits r2, h.2.symm⟩
            · exfalso
              revert h
              cases b <;> simp_all
      · exfalso
        revert h
        cases a <;> simp_all

lemma searchDurList_shape {l g : List Char} {v : ℚ}
    (h : searchDurList l = some (g, v)) : durShape g v := by
  induction l with
  | nil => simp [searchDurList] at h
  | cons c t ih =>
    rw [searchDurList] at h
    cases hm : matchDurAt (c :: t) with
    | some r =>
      rw [hm] at h
      cases h
      exact matchDurAt_shape hm
    | none =>
      rw [hm] at h
      exact ih h

lemma searchDur_shape {s : String} {g : String} {v : ℚ}
    (h : searchDur s = some (g, v)) : durShape g.data v := by
  unfold searchDur at h
  cases hm : searchDurList s.data with
  | none =>
    rw [hm] at h
    exact Option.noConfusion h
  | some p =>
    obtain ⟨p1, p2⟩ := p
    rw [hm] at h
    rw [show Option.map (fun r : List Char × ℚ => (String.mk r.1, r.2)) (some (p1, p2))
        = some (String.mk p1, p2) from rfl] at h
    simp only [Option.some.injEq, Prod.mk.injEq] at h
    obtain ⟨hg, hv⟩ := h
    subst hg
    subst hv
    exact searchDurList_shape hm

@[simp] lemma combineMax_none (m : Option ℚ) : combineMax m none = m := by
  cases m <;> rfl

lemma string_append_s (g : String) : g ++ "s" = String.mk (g.data ++ ['s']) := rfl

lemma updateWorst_rel (w : String) (m : Option ℚ) (line : String)
    (h : worstRel w m) :
    worstRel (updateWorst w line)
      (combineMax m ((searchDur line).map Prod.snd)) := by
  cases hd : searchDur line with
  | none =>
    simp only [updateWorst, hd]
    rw [show (Option.map Prod.snd (none : Option (String × ℚ))) = none from rfl,
      combineMax_none]
    exact h
  | some p =>
    obtain ⟨g, v⟩ := p
    obtain ⟨e1, e2, hgd, he1, he2, hdig1, hdig2, hv⟩ := searchDur_shape hd
    simp only [updateWorst, hd]
    rw [show (Option.map Prod.snd (some (g, v))) = some v from rfl]
    rcases h with ⟨hw, hm⟩ | ⟨d1, d2, hne1, hne2, hd1, hd2, hw, hm⟩
    · subst hw
      subst hm
      rw [if_pos (Or.inl rfl)]
      refine Or.inr ⟨e1, e2, he1, he2, hdig1, hdig2, ?_, ?_⟩
      · rw [string_append_s, hgd]
      · rw [show combineMax none (some v) = some v from rfl, hv]
    · have hpr : StrUtil.parseFloatQ (StrUtil.rstripS w) = StrUtil.fracVal d1 d2 := by
        rw [hw, rstripS_group d1 d2 hd2 hne2, parseFloatQ_mk d1 d2 hd1 hd2]
      have hwne : ¬ (w = "") := by
        rw [hw]
        intro hcon
        have := congrArg String.data hcon
        simp at this
      subst hm
      by_cases hcmp : v > StrUtil.fracVal d1 d2
      · rw [if_pos (Or.inr (by rw [hpr]; exact hcmp))]
        refine Or.inr ⟨e1, e2, he1, he2, hdig1, hdig2, ?_, ?_⟩
        · rw [string_append_s, hgd]
        · show combineMax (some (StrUtil.fracVal d1 d2)) (some v) = _
          rw [show combineMax (some (StrUtil.fracVal d1 d2)) (some v)
              = some (max (StrUtil.fracVal d1 d2) v) from rfl]
          rw [max_eq_right (le_of_lt hcmp), hv]
      · rw [if_neg (fun hor => hor.elim hwne (fun hgt => hcmp (hpr ▸ hgt)))]
        refine Or.inr ⟨d1, d2, hne1, hne2, hd1, hd2, hw, ?_⟩
        rw [show combineMax (some (StrUtil.fracVal d1 d2)) (some v)
            = some (max (StrUtil.fracVal d1 d2) v) from rfl]
        rw [max_eq_left (not_lt.mp hcmp)]

lemma foldl_worst_rel (ls : List String) : ∀ (w : String) (m : Option ℚ),
    worstRel w m →
    worstRel (ls.foldl updateWorst w)
      (ls.foldl (fun m l => combineMax m ((searchDur l).map Prod.snd)) m) := by
  induction ls with
  | nil => intro w m h; exact h
  | cons l t ih =>
    intro w m h
    rw [List.foldl_cons, List.foldl_cons]
    exact ih _ _ (updateWorst_rel w m l h)

lemma foldl_combine_filterMap (ls : List String) : ∀ m : Option ℚ,
    ls.foldl (fun m l => combineMax m ((searchDur l).map Prod.snd)) m
      = (ls.filterMap (fun l => (searchDur l).map Prod.snd)).foldl
          (fun m q => combineMax m (some q)) m := by
  induction ls with
  | nil => intro m; rfl
  | cons l t ih =>
    intro m
    rw [List.foldl_cons, List.filterMap_cons]
    cases hd : searchDur l with
    | none =>
      rw [show (Option.map Prod.snd (none : Option (String × ℚ))) = none from rfl,
        combineMax_none]
      exact ih m
    | some p =>
      rw [show (Option.map Prod.snd (some p)) = some p.2 from rfl, List.foldl_cons]
      exact ih _

lemma foldl_combine_some (l : List ℚ) : ∀ a : ℚ,
    l.foldl (fun m q => combineMax m (some q)) (some a) = some (l.foldl max a) := by
  induction l with
  | nil => intro a; rfl
  | cons q t ih =>
    intro a
    rw [List.foldl_cons, List.foldl_cons,
      show combineMax (some a) (some q) = some (max a q) from rfl]
    exact ih _

lemma foldl_combine_max (l : List ℚ) :
    l.foldl (fun m q => combineMax m (some q)) none = l.max? := by
  cases l with
  | nil => rfl
  | cons q t =>
    rw [List.foldl_cons, show combineMax none (some q) = some q from rfl,
      foldl_combine_some, List.max?_cons']

/-- The worst-case fold is characterized by the maximum of the first
embedded duration of each line. -/
lemma foldWorst_spec (ls : List String) :
    worstRel (foldWorst ls)
      ((ls.filterMap (fun l => (searchDur l).map Prod.snd)).max?) := by
  have h := foldl_worst_rel ls "" none (Or.inl ⟨rfl, rfl⟩)
  rwa [foldl_combine_filterMap, foldl_combine_max] at h

lemma foldWorst_empty (ls : List String)
    (h : ls.filterMap (fun l => (searchDur l).map Prod.snd) = []) :
    foldWorst ls = "" := by
  have hs := foldWorst_spec ls
  rw [h] at hs
  rcases hs with ⟨hw, _⟩ | ⟨d1, d2, _, _, _, _, _, hm⟩
  · exact hw
  · exact absurd hm.symm (by simp)

lemma foldWorst_max (ls : List String) (q : ℚ)
    (h : (ls.filterMap (fun l => (searchDur l).map Prod.snd)).max? = some q) :
    StrUtil.parseFloatQ (StrUtil.rstripS (foldWorst ls)) = q := by
  have hs := foldWorst_spec ls
  rw [h] at hs
  rcases hs with ⟨_, hm⟩ | ⟨d1, d2, hne1, hne2, hd1, hd2, hw, hm⟩
  · exact absurd hm (by simp)
  · rw [hw, rstripS_group d1 d2 hd2 hne2, parseFloatQ_mk d1 d2 hd1 hd2,
      Option.some.inj hm]

lemma mem_ecWarning {env : LokiEnvelope} {w : LogWarning}
    (hw : w ∈ ecWarning env) :
    w = ⟨"EffectConsumer queue blocking", (ecMatchingLines env).length,
      "Messages that 'should have been an actuator' blocked the EffectConsumer queue",
      foldWorst (ecMatchingLines env)⟩ ∧ 0 < (ecMatchingLines env).length := by
  unfold ecWarning at hw
  split_ifs at hw with hc
  · exact ⟨List.mem_singleton.mp hw, hc⟩
  · simp at hw

lemma mem_hibWarning {env : LokiEnvelope} {w : LogWarning}
    (hw : w ∈ hibWarning env) :
    w = ⟨"Hibernate dialect mismatch", (hibMatchingLines env).length,
      "MariaDB dialect configured but database is MySQL 8.0", ""⟩ ∧
      0 < (hibMatchingLines env).length := by
  unfold hibWarning at hw
  split_ifs at hw with hc
  · exact ⟨List.mem_singleton.mp hw, hc⟩
  · simp at hw

lemma mem_missWarning {env : LokiEnvelope} {w : LogWarning}
    (hw : w ∈ missWarning env) :
    w = ⟨"Missing dataset attribute mappings", (missMatchingLines env).length,
      "Dataset attribute mapping warnings", ""⟩ ∧
      0 < (missMatchingLines env).length := by
  unfold missWarning at hw
  split_ifs at hw with hc
  · exact ⟨List.mem_singleton.mp hw, hc⟩
  · simp at hw

lemma warnings_of_success {env : LokiEnvelope} (hst : env.status = "success") :
    (analyze_webapp_logs env).warnings =
      ecWarning env ++ hibWarning env ++ missWarning env := by
  unfold analyze_webapp_logs
  rw [if_neg (by simp [hst])]

/-- Claim C7 (amended): for every webapp envelope with a success
status, the analyzer emits at most one warning per category (pairwise
distinct categories), emits each category's warning exactly when the
accumulated count of matching lines is positive and with that count;
and the queue-blocking warning's `worst_case` is derived from the
FIRST embedded `<seconds>s` duration of each matching line: it is
empty when no matching line has one, and otherwise parses back to the
maximum of those per-line first durations (later durations inside the
same line are never examined). -/
theorem webapp_warnings_amended (env : LokiEnvelope) (hst : env.status = "success") :
    ((analyze_webapp_logs env).warnings.Pairwise
      (fun w1 w2 => w1.category ≠ w2.category)) ∧
    ((∃ w ∈ (analyze_webapp_logs env).warnings,
        w.category = "EffectConsumer queue blocking") ↔
      0 < (ecMatchingLines env).length) ∧
    (∀ w ∈ (analyze_webapp_logs env).warnings,
      w.category = "EffectConsumer queue blocking" →
        w.count = (ecMatchingLines env).length ∧
        (ecFirstDurs env = [] → w.worst_case = "") ∧
        (∀ q, (ecFirstDurs env).max? = some q →
          StrUtil.parseFloatQ (StrUtil.rstripS w.worst_case) = q)) ∧
    ((∃ w ∈ (analyze_webapp_logs env).warnings,
        w.category = "Hibernate dialect mismatch") ↔
      0 < (hibMatchingLines env).length) ∧
    (∀ w ∈ (analyze_webapp_logs env).warnings,
      w.category = "Hibernate dialect mismatch" →
        w.count = (hibMatchingLines env).length) ∧
    ((∃ w ∈ (analyze_webapp_logs env).warnings,
        w.category = "Missing dataset attribute mappings") ↔
      0 < (missMatchingLines env).length) ∧
    (∀ w ∈ (analyze_webapp_logs env).warnings,
      w.category = "Missing dataset attribute mappings" →
        w.count = (missMatchingLines env).length) := by
  rw [warnings_of_success hst]
  have hAcat : ∀ w ∈ ecWarning env, w.category = "EffectConsumer queue blocking" := by
    intro w hw
    rw [(mem_ecWarning hw).1]
  have hBcat : ∀ w ∈ hibWarning env, w.category = "Hibernate dialect mismatch" := by
    intro w hw
    rw [(mem_hibWarning hw).1]
  have hCcat : ∀ w ∈ missWarning env,
      w.category = "Missing dataset attribute mappings" := by
    intro w hw
    rw [(mem_missWarning hw).1]
  refine ⟨?_, ?_, ?_, ?_, ?_, ?_, ?_⟩
  · rw [List.pairwise_append]
    refine ⟨?_, ?_, ?_⟩
    · rw [List.pairwise_append]
      refine ⟨?_, ?_, ?_⟩
      · unfold ecWarning
        split_ifs <;> simp
      · unfold hibWarning
        split_ifs <;> simp
      · intro a ha b hb
        rw [hAcat a ha, hBcat b hb]
        decide
    · unfold missWarning
      split_ifs <;> simp
    · intro a ha b hb
      rcases List.mem_append.mp ha with ha | ha
      · rw [hAcat a ha, hCcat b hb]
        decide
      · rw [hBcat a ha, hCcat b hb]
        decide
  · constructor
    · rintro ⟨w, hw, hcat⟩
      rcases List.mem_append.mp hw with hw | hw
      · rcases List.mem_append.mp hw with hw | hw
        · exact (mem_ecWarning hw).2
        · rw [hBcat w hw] at hcat
          exact absurd hcat (by decide)
      · rw [hCcat w hw] at hcat
        exact absurd hcat (by decide)
    · intro hlen
      have hA : ecWarning env =
          [⟨"EffectConsumer queue blocking", (ecMatchingLines env).length,
            "Messages that 'should have been an actuator' blocked the EffectConsumer queue",
            foldWorst (ecMatchingLines env)⟩] := by
        unfold ecWarning
        rw [if_pos hlen]
      exact ⟨⟨"EffectConsumer queue blocking", (ecMatchingLines env).length,
        "Messages that 'should have been an actuator' blocked the EffectConsumer queue",
        foldWorst (ecMatchingLines env)⟩, by rw [hA]; simp, rfl⟩
  · intro w hw hcat
    have hw' : w = ⟨"EffectConsumer queue blocking", (ecMatchingLines env).length,
        "Messages that 'should have been an actuator' blocked the EffectConsumer queue",
        foldWorst (ecMatchingLines env)⟩ := by
      rcases List.mem_append.mp hw with hw | hw
      · rcases List.mem_append.mp hw with hw | hw
        · exact (mem_ecWarning hw).1
        · rw [hBcat w hw] at hcat
          exact absurd hcat (by decide)
      · rw [hCcat w hw] at hcat
        exact absurd hcat (by decide)
    subst hw'
    refine ⟨rfl, ?_, ?_⟩
    · intro hdurs
      exact foldWorst_empty _ hdurs
    · intro q hq
      exact foldWorst_max _ q hq
  · constructor
    · rintro ⟨w, hw, hcat⟩
      rcases List.mem_append.mp hw with hw | hw
      · rcases List.mem_append.mp hw with hw | hw
        · rw [hAcat w hw] at hcat
          exact absurd hcat (by decide)
        · exact (mem_hibWarning hw).2
      · rw [hCcat w hw] at hcat
        exact absurd hcat (by decide)
    · intro hlen
      have hB : hibWarning env =
          [⟨"Hibernate dialect mismatch", (hibMatchingLines env).length,
            "MariaDB dialect configured but database is MySQL 8.0", ""⟩] := by
        unfold hibWarning
        rw [if_pos hlen]
      exact ⟨⟨"Hibernate dialect mismatch", (hibMatchingLines env).length,
        "MariaDB dialect configured but database is MySQL 8.0", ""⟩,
        by rw [hB]; simp, rfl⟩
  · intro w hw hcat
    have hw' : w = ⟨"Hibernate dialect mismatch", (hibMatchingLines env).length,
        "MariaDB dialect configured but database is MySQL 8.0", ""⟩ := by
      rcases List.mem_append.mp hw with hw | hw
      · rcases List.mem_append.mp hw with hw | hw
        · rw [hAcat w hw] at hcat
          exact absurd hcat (by decide)
        · exact (mem_hibWarning hw).1
      · rw [hCcat w hw] at hcat
        exact absurd hcat (by decide)
    subst hw'
    rfl
  · constructor
    · rintro ⟨w, hw, hcat⟩
      rcases List.mem_append.mp hw with hw | hw
      · rcases List.mem_append.mp hw with hw | hw
        · rw [hAcat w hw] at hcat
          exact absurd hcat (by decide)
        · rw [hBcat w hw] at hcat
          exact absurd hcat (by decide)
      · exact (mem_missWarning hw).2
    · intro hlen
      have hC : missWarning env =
          [⟨"Missing dataset attribute mappings", (missMatchingLines env).length,
            "Dataset attribute mapping warnings", ""⟩] := by
        unfold missWarning
        rw [if_pos hlen]
      exact ⟨⟨"Missing dataset attribute mappings", (missMatchingLines env).length,
        "Dataset attribute mapping warnings", ""⟩, by rw [hC]; simp, rfl⟩
  · intro w hw hcat
    have hw' : w = ⟨"Missing dataset attribute mappings", (missMatchingLines env).length,
        "Dataset attribute mapping warnings", ""⟩ := by
      rcases List.mem_append.mp hw with hw | hw
      · rcases List.mem_append.mp hw with hw | hw
        · rw [hAcat w hw] at hcat
          exact absurd hcat (by decide)
        · rw [hBcat w hw] at hcat
          exact absurd hcat (by decide)
      · exact (mem_missWarning hw).1
    subst hw'
    rfl

/-- Claim C7 counterexample: one matching WARN line embeds both 1.5s
and 9.9s; the scanner keeps only the line's first match, so the
emitted worst case is "1.5s" although the larger duration 9.9s is
embedded in the same matching line. -/
theorem webapp_worst_case_cex :
    (analyze_webapp_logs Ex.env7).warnings =
      [⟨"EffectConsumer queue blocking", 1,
        "Messages that 'should have been an actuator' blocked the EffectConsumer queue",
        "1.5s"⟩] ∧
    strContains "WARN EffectConsumer blocked 1.5s then 9.9s" "9.9s" = true ∧
    StrUtil.parseFloatQ (StrUtil.rstripS "1.5s") = 3 / 2 ∧
    StrUtil.parseFloatQ "9.9" = 99 / 10 ∧
    (3 / 2 : ℚ) < 99 / 10 := by
  refine ⟨by decide, by decide, ?_, ?_, by norm_num⟩
  · have e1 : StrUtil.rstripS "1.5s" = "1.5" := by decide
    have e2 : StrUtil.takeDigits ("1.5" : String).data = (['1'], '.' :: ['5']) := by
      decide
    have e3 : StrUtil.takeDigits ['5'] = (['5'], []) := by decide
    have d1 : StrUtil.digitsToNat ['1'] = 1 := by decide
    have d5 : StrUtil.digitsToNat ['5'] = 5 := by decide
    rw [e1]
    simp only [StrUtil.parseFloatQ, e2, e3, StrUtil.fracVal, d1, d5]
    norm_num
  · have e2 : StrUtil.takeDigits ("9.9" : String).data = (['9'], '.' :: ['9']) := by
      decide
    have e3 : StrUtil.takeDigits ['9'] = (['9'], []) := by decide
    have d9 : StrUtil.digitsToNat ['9'] = 9 := by decide
    simp only [StrUtil.parseFloatQ, e2, e3, StrUtil.fracVal, d9]
    norm_num

/-- Witness for the amended C7 at a seven-line queue-blocking log. -/
theorem webapp_warnings_amended_witness :
    ((analyze_webapp_logs Ex.env7W).warnings.Pairwise
      (fun w1 w2 => w1.category ≠ w2.category)) ∧
    ((∃ w ∈ (analyze_webapp_logs Ex.env7W).warnings,
        w.category = "EffectConsumer queue blocking") ↔
      0 < (ecMatchingLines Ex.env7W).length) ∧
    (∀ w ∈ (analyze_webapp_logs Ex.env7W).warnings,
      w.category = "EffectConsumer queue blocking" →
        w.count = (ecMatchingLines Ex.env7W).length ∧
        (ecFirstDurs Ex.env7W = [] → w.worst_case = "") ∧
        (∀ q, (ecFirstDurs Ex.env7W).max? = some q →
          StrUtil.parseFloatQ (StrUtil.rstripS w.worst_case) = q)) ∧
    ((∃ w ∈ (analyze_webapp_logs Ex.env7W).warnings,
        w.category = "Hibernate dialect mismatch") ↔
      0 < (hibMatchingLines Ex.env7W).length) ∧
    (∀ w ∈ (analyze_webapp_logs Ex.env7W).warnings,
      w.category = "Hibernate dialect mismatch" →
        w.count = (hibMatchingLines Ex.env7W).length) ∧
    ((∃ w ∈ (analyze_webapp_logs Ex.env7W).warnings,
        w.category = "Missing dataset attribute mappings") ↔
      0 < (missMatchingLines Ex.env7W).length) ∧
    (∀ w ∈ (analyze_webapp_logs Ex.env7W).warnings,
      w.category = "Missing dataset attribute mappings" →
        w.count = (missMatchingLines Ex.env7W).length) :=
  webapp_warnings_amended Ex.env7W rfl

end AppLogsProofs

/-! ### Properties of the orchestration analyzer -/

section OrchestrationProofs

open Orchestration

instance : IsTotal LogEntry (fun a b => a.ts ≤ b.ts) :=
  ⟨fun a b => le_total a.ts b.ts⟩

instance : IsTrans LogEntry (fun a b => a.ts ≤ b.ts) :=
  ⟨fun _ _ _ h1 h2 => le_trans h1 h2⟩

lemma sortLog_sorted (entries : List LogEntry) :
    List.Sorted (fun a b => a.ts ≤ b.ts) (sortLog entries) :=
  List.sorted_insertionSort _ entries

/-- Ordered markers produce well-formed, non-overlapping phases. -/
lemma buildPhases_invariant (mk : Markers)
    (h : List.Sorted (· ≤ ·) (markerList mk)) :
    (∀ p ∈ buildPhases mk, p.start ≤ p.stop) ∧
      List.Chain' (fun p q => p.stop ≤ q.start) (buildPhases mk) := by
  obtain ⟨i, b, a, m, hs, he, fs, te⟩ := mk
  rcases i with _ | i <;> rcases b with _ | b <;> rcases a with _ | a <;>
    rcases m with _ | m <;> rcases hs with _ | hs <;> rcases he with _ | he <;>
    rcases fs with _ | fs <;> rcases te with _ | te <;>
    simp_all [buildPhases, markerList, List.chain'_cons, List.sorted_cons] <;>
    (try constructor) <;> (try split_ifs) <;>
    (try simp_all [List.chain'_cons]) <;> try linarith
  all_goals
    intro p hp
  all_goals
    rcases hp with ⟨hne, rfl⟩ | hp2 <;> try rcases hp2 with rfl | rfl
  all_goals simp_all

lemma resumeStep_inv (st : ResumeState) (e : LogEntry) (rest : List LogEntry)
    (hsort : ∀ e' ∈ rest, e.ts ≤ e'.ts) (hinv : stateOK st (e :: rest)) :
    stateOK (resumeStep st e) rest := by
  obtain ⟨h1, h2, h3⟩ := hinv
  unfold resumeStep
  split_ifs with hA hB hC hD hR
  · exact ⟨h1, fun hr e' he' => h2 hr e' (List.mem_cons_of_mem _ he'), h3⟩
  · exact ⟨h1, fun hr => by simp at hr, h3⟩
  · exact ⟨le_refl 0, fun _ e' he' => hsort e' he', h3⟩
  · generalize hse : searchExport e.msg = res
    cases res with
    | some n =>
      refine ⟨?_, fun hr e' he' => h2 hr e' (List.mem_cons_of_mem _ he'), h3⟩
      exact div_nonneg (by exact_mod_cast Nat.zero_le n) (by norm_num)
    | none =>
      refine ⟨le_refl 0, fun hr => by simp at hr, ?_⟩
      intro ro hro
      rcases List.mem_append.mp hro with hold | hnew
      · exact h3 ro hold
      · rcases List.mem_singleton.mp hnew with rfl
        refine ⟨h1, ?_⟩
        have hts : st.curStart ≤ e.ts := h2 hD e (List.mem_cons_self _ _)
        unfold ResumeOverhead.total_s
        dsimp only
        linarith
  · generalize hse : searchExport e.msg = res
    cases res with
    | some n =>
      refine ⟨?_, fun hr e' he' => h2 hr e' (List.mem_cons_of_mem _ he'), h3⟩
      exact div_nonneg (by exact_mod_cast Nat.zero_le n) (by norm_num)
    | none =>
      exact ⟨h1, fun hr e' he' => h2 hr e' (List.mem_cons_of_mem _ he'), h3⟩
  · exact ⟨h1, fun hr e' he' => h2 hr e' (List.mem_cons_of_mem _ he'), h3⟩

lemma foldl_resume_inv (l : List LogEntry) :
    List.Sorted (fun a b => a.ts ≤ b.ts) l → ∀ st : ResumeState, stateOK st l →
    ∀ ro ∈ (l.foldl resumeStep st).overheads, overheadOK ro := by
  induction l with
  | nil => intro _ st hinv; exact hinv.2.2
  | cons e t ih =>
    intro hsort st hinv
    rw [List.foldl_cons]
    have hst := List.sorted_cons.mp hsort
    exact ih hst.2 _ (resumeStep_inv st e t (fun e' he' => hst.1 e' he') hinv)

/-- Claim C2 (amended): every emitted resume overhead satisfies
`repo_export_s ≥ 0` and `total_s ≥ 0`.  The dependency-resolution
component is `total − export` with no clamp, so it can be negative
when the parsed export duration exceeds the measured window (see the
counterexample); the spec's claimed clamp does not exist in the code. -/
theorem resume_overheads_amended (entries : List LogEntry) :
    ∀ ro ∈ (analyze entries).resume_overheads,
      0 ≤ ro.repo_export_s ∧ 0 ≤ ro.total_s := by
  unfold analyze
  by_cases he : entries.isEmpty
  · simp [he, OrchestrationResult.emptyResult]
  · simp only [he, Bool.false_eq_true, if_false]
    intro ro hro
    have := foldl_resume_inv (sortLog entries) (sortLog_sorted entries)
      initResumeState
      ⟨le_refl 0, fun hr => by simp [initResumeState] at hr, by simp [initResumeState]⟩
      ro hro
    exact this

/-- Claim C2 counterexample: a resume window of 2 s whose export line
reports 5000 ms produces `dep_resolution_s = -3 < 0`; the code has no
clamp at zero. -/
theorem resume_overhead_claim_cex :
    ∃ ro ∈ (analyze Ex.log2).resume_overheads, ro.dep_resolution_s < 0 := by
  have hr : isRunningMsg "Process status: RUNNING" = true := by decide
  have hs1 : isSuspendedMsg "Process status: RUNNING" = false := by decide
  have hs2 : isSuspendedMsg "Storing policy files" = false := by decide
  have hs3 : isSuspendedMsg "Repository data export took 5000ms" = false := by decide
  have hp2 : strContains "Storing policy files" "Storing policy" = true := by decide
  have hp1 : strContains "Process status: RUNNING" "Storing policy" = false := by decide
  have hp3 : strContains "Repository data export took 5000ms" "Storing policy" = false := by
    decide
  have hx3 : searchExport "Repository data export took 5000ms" = some 5000 := by decide
  have hx1 : searchExport "Process status: RUNNING" = none := by decide
  have h : (analyze Ex.log2).resume_overheads = [⟨1, 5, -3⟩] := by
    norm_num [analyze, Ex.log2, sortLog, List.insertionSort, List.orderedInsert,
      runResume, resumeStep, initResumeState, hr, hs1, hs2, hs3, hp1, hp2, hp3,
      hx1, hx3]
  rw [h]
  refine ⟨⟨1, 5, -3⟩, by simp, by norm_num⟩

/-- Witness for the amended C2 at the concrete resume overhead emitted
for the 2 s window whose export line reports 5000 ms. -/
theorem resume_overheads_amended_witness :
    (⟨1, 5, -3⟩ : ResumeOverhead) ∈ (analyze Ex.log2).resume_overheads ∧
    0 ≤ (⟨1, 5, -3⟩ : ResumeOverhead).repo_export_s ∧
    0 ≤ (⟨1, 5, -3⟩ : ResumeOverhead).total_s := by
  have hr : isRunningMsg "Process status: RUNNING" = true := by decide
  have hs1 : isSuspendedMsg "Process status: RUNNING" = false := by decide
  have hs2 : isSuspendedMsg "Storing policy files" = false := by decide
  have hs3 : isSuspendedMsg "Repository data export took 5000ms" = false := by decide
  have hp2 : strContains "Storing policy files" "Storing policy" = true := by decide
  have hp1 : strContains "Process status: RUNNING" "Storing policy" = false := by decide
  have hp3 : strContains "Repository data export took 5000ms" "Storing policy" = false := by
    decide
  have hx3 : searchExport "Repository data export took 5000ms" = some 5000 := by decide
  have hx1 : searchExport "Process status: RUNNING" = none := by decide
  have h : (analyze Ex.log2).resume_overheads = [⟨1, 5, -3⟩] := by
    norm_num [analyze, Ex.log2, sortLog, List.insertionSort, List.orderedInsert,
      runResume, resumeStep, initResumeState, hr, hs1, hs2, hs3, hp1, hp2, hp3,
      hx1, hx3]
  have hmem : (⟨1, 5, -3⟩ : ResumeOverhead) ∈ (analyze Ex.log2).resume_overheads := by
    rw [h]
    exact List.mem_singleton_self _
  exact ⟨hmem, resume_overheads_amended Ex.log2 _ hmem⟩

/-- Claim C3 (amended): whenever the first-occurrence phase markers of
the log appear in the canonical boundary order, every built phase has
`start ≤ end` and consecutive phases do not overlap
(`phase[i].end ≤ phase[i+1].start`).  Without that ordering the
invariant fails (see the counterexample). -/
theorem phases_invariant_amended (entries : List LogEntry)
    (h : List.Sorted (· ≤ ·) (markerList (computeMarkers (sortLog entries)))) :
    (∀ p ∈ (analyze entries).phases, p.start ≤ p.stop) ∧
      List.Chain' (fun p q => p.stop ≤ q.start) (analyze entries).phases := by
  unfold analyze
  by_cases he : entries.isEmpty
  · simp [he, OrchestrationResult.emptyResult]
  · simp only [he, Bool.false_eq_true, if_false]
    exact buildPhases_invariant _ h

/-- Claim C3 counterexample: a log with the bootstrap marker at t = 0
and the init marker at t = 1 yields the phase `Init = [1, 0]` with
`end < start`. -/
theorem phases_claim_cex :
    ¬ ∀ p ∈ (analyze Ex.log3).phases, p.start ≤ p.stop := by
  intro hall
  have h : (analyze Ex.log3).phases = [⟨"Init", 1, 0⟩] := by decide
  have := hall ⟨"Init", 1, 0⟩ (by rw [h]; exact List.mem_singleton_self _)
  norm_num at this

/-- Witness for the amended C3 at a log carrying every marker in
canonical order. -/
theorem phases_invariant_amended_witness :
    (∀ p ∈ (analyze Ex.logOrdered).phases, p.start ≤ p.stop) ∧
      List.Chain' (fun p q => p.stop ≤ q.start) (analyze Ex.logOrdered).phases :=
  phases_invariant_amended Ex.logOrdered (by decide)

end OrchestrationProofs

/-! ### Properties of the correlator -/

section CorrelatorProofs

open Correlator Orchestration TestReports AppLogs Metrics

lemma finding1_rank (o : OrchestrationResult) : ∀ f ∈ finding1 o, f.rank = 1 := by
  intro f hf
  unfold finding1 at hf
  split_ifs at hf <;> simp_all

lemma finding2_rank (o : OrchestrationResult) : ∀ f ∈ finding2 o, f.rank = 2 := by
  intro f hf
  unfold finding2 at hf
  split_ifs at hf <;> simp_all

lemma finding3_rank (d : DispatcherTimeline) : ∀ f ∈ finding3 d, f.rank = 3 := by
  intro f hf
  unfold finding3 at hf
  split_ifs at hf <;> simp_all

lemma finding4_rank (k : TestSuiteResult) : ∀ f ∈ finding4 k, f.rank = 4 := by
  intro f hf
  unfold finding4 at hf
  split_ifs at hf
  · dsimp only [] at hf
    split at hf
    · split_ifs at hf <;> simp_all
    · simp_all
  · simp_all

lemma finding5_rank (s : TestSuiteResult) : ∀ f ∈ finding5 s, f.rank = 5 := by
  intro f hf
  unfold finding5 at hf
  split at hf <;> simp_all

lemma finding6_rank (s : TestSuiteResult) : ∀ f ∈ finding6 s, f.rank = 6 := by
  intro f hf
  unfold finding6 at hf
  split at hf
  · simp_all
  · split_ifs at hf <;> simp_all

lemma warningFindings_rank (ws : List LogWarning) :
    ∀ f ∈ warningFindings ws, f.rank = 8 ∨ f.rank = 9 := by
  intro f hf
  unfold warningFindings at hf
  rw [List.mem_flatMap] at hf
  obtain ⟨w, _, hf⟩ := hf
  split_ifs at hf <;> simp_all

lemma finding10_rank (s : TestSuiteResult) : ∀ f ∈ finding10 s, f.rank = 10 := by
  intro f hf
  unfold finding10 at hf
  split at hf <;> simp_all

/-- Claim C9: each analyzer and the correlator is a deterministic, pure
function of its input: byte-identical (equal) inputs give identical
outputs, with no dependence on clocks or randomness (none exists in the
embedding). -/
theorem analyzers_deterministic :
    (∀ x y : List Orchestration.LogEntry, x = y →
      Orchestration.analyze x = Orchestration.analyze y) ∧
    (∀ x y : LokiEnvelope, x = y →
      analyze_webapp_logs x = analyze_webapp_logs y) ∧
    (∀ x y : LokiEnvelope, x = y →
      analyze_dispatcher_logs x = analyze_dispatcher_logs y) ∧
    (∀ (x y : MetricFile) (n u : String), x = y →
      summarize x n u = summarize y n u) ∧
    (∀ (o o' : OrchestrationResult) (k k' s s' : TestSuiteResult)
        (a a' : AppLogsResult) (d d' : DispatcherTimeline) (m m' : MetricsResult),
      o = o' → k = k' → s = s' → a = a' → d = d' → m = m' →
      correlate o k s a d m = correlate o' k' s' a' d' m') := by
  refine ⟨fun x y h => by rw [h], fun x y h => by rw [h], fun x y h => by rw [h],
    fun x y n u h => by rw [h], ?_⟩
  intro o o' k k' s s' a a' d d' m m' h1 h2 h3 h4 h5 h6
  rw [h1, h2, h3, h4, h5, h6]

/-- Witness for C9 at concrete inputs. -/
theorem analyzers_deterministic_witness :
    Orchestration.analyze Ex.logOrdered = Orchestration.analyze Ex.logOrdered ∧
      correlate OrchestrationResult.emptyResult Ex.emptySuite Ex.emptySuite
          AppLogsResult.empty DispatcherTimeline.empty MetricsResult.empty
        = correlate OrchestrationResult.emptyResult Ex.emptySuite Ex.emptySuite
          AppLogsResult.empty DispatcherTimeline.empty MetricsResult.empty :=
  ⟨analyzers_deterministic.1 _ _ rfl,
   analyzers_deterministic.2.2.2.2 _ _ _ _ _ _ _ _ _ _ _ _ rfl rfl rfl rfl rfl rfl⟩

/-- Claim C1 (amended): whenever `correlate` returns a result (it
raises when the cpu and pending summaries are present but the memory
summary is absent), the rank-7 headroom finding appears iff the cpu
and pending-connections summaries are both present.  The threshold
condition of `MetricsResult.has_headroom` (cpu average < 1 and pending
max = 0) is never consulted by the correlator. -/
lemma rank_of_mem_concat (o : OrchestrationResult) (k s : TestSuiteResult)
    (ws : List LogWarning) (d : DispatcherTimeline) (f7 : List Finding) (f : Finding)
    (hf : f ∈ finding1 o ++ finding2 o ++ finding3 d ++ finding4 k ++ finding5 s ++
      finding6 s ++ f7 ++ warningFindings ws ++ finding10 s) :
    f ∈ f7 ∨ f.rank ≠ 7 := by
  simp only [List.append_assoc, List.mem_append] at hf
  rcases hf with hf | hf | hf | hf | hf | hf | hf | hf | hf
  · exact Or.inr (by have := finding1_rank o f hf; omega)
  · exact Or.inr (by have := finding2_rank o f hf; omega)
  · exact Or.inr (by have := finding3_rank d f hf; omega)
  · exact Or.inr (by have := finding4_rank k f hf; omega)
  · exact Or.inr (by have := finding5_rank s f hf; omega)
  · exact Or.inr (by have := finding6_rank s f hf; omega)
  · exact Or.inl hf
  · exact Or.inr (by rcases warningFindings_rank ws f hf with h8 | h9 <;> omega)
  · exact Or.inr (by have := finding10_rank s f hf; omega)

theorem headroom_presence_gate (o : OrchestrationResult) (k s : TestSuiteResult)
    (a : AppLogsResult) (d : DispatcherTimeline) (m : MetricsResult)
    (res : CorrelationResult)
    (h : correlate o k s a d m = some res) :
    (∃ f ∈ res.findings, f.rank = 7) ↔
      (m.cpu.isSome ∧ m.hikaricp_pending.isSome) := by
  have absent : ∀ hgate : ¬ (m.cpu.isSome ∧ m.hikaricp_pending.isSome),
      finding7 m = some [] →
      ((∃ f ∈ res.findings, f.rank = 7) ↔
        (m.cpu.isSome ∧ m.hikaricp_pending.isSome)) := by
    intro hgate h7
    simp only [correlate, h7, Option.some.injEq] at h
    subst h
    constructor
    · rintro ⟨f, hf, hf7⟩
      rcases rank_of_mem_concat o k s a.warnings d [] f hf with hin | hne
      · simp at hin
      · exact absurd hf7 hne
    · intro hg
      exact absurd hg hgate
  rcases hc : m.cpu with _ | cpu <;> rcases hp : m.hikaricp_pending with _ | pend
  · simpa [hc, hp] using absent (by simp [hc]) (by simp [finding7, hc])
  · simpa [hc, hp] using absent (by simp [hc]) (by simp [finding7, hc])
  · simpa [hc, hp] using absent (by simp [hp]) (by simp [finding7, hc, hp])
  · rcases hm : m.memory with _ | mem
    · have h7 : finding7 m = none := by simp [finding7, hc, hp, hm]
      rw [correlate, h7] at h
      exact absurd h (by simp)
    · cases hf7 : finding7 m with
      | none => simp [finding7, hc, hp, hm] at hf7
      | some l =>
        have hl : ∃ x, l = [x] ∧ x.rank = 7 := by
          simp only [finding7, hc, hp, hm, Option.some.injEq] at hf7
          exact ⟨_, hf7.symm, rfl⟩
        obtain ⟨x, rfl, hx7⟩ := hl
        simp only [correlate, hf7, Option.some.injEq] at h
        subst h
        constructor
        · intro _
          simp
        · intro _
          exact ⟨x, by simp, hx7⟩

/-- Claim C1 counterexample: with the cpu summary averaging 5 cores and
the pending-connections summary peaking at 3 (both thresholds
violated), the rank-7 headroom finding is still emitted, because the
correlator only checks that the two summaries are present. -/
theorem headroom_claim_cex :
    (correlate OrchestrationResult.emptyResult Ex.emptySuite Ex.emptySuite
        AppLogsResult.empty DispatcherTimeline.empty Ex.metricsBad).map
      (fun r => r.findings.any (fun f => f.rank == 7)) = some true ∧
    ¬ (Ex.cpuBad.avg_val < 1 ∧ Ex.pendBad.max_val = 0) :=
  ⟨by decide, by decide⟩

/-- Witness for the amended C1 at the same concrete inputs. -/
theorem headroom_presence_gate_witness :
    ∃ res, correlate OrchestrationResult.emptyResult Ex.emptySuite Ex.emptySuite
        AppLogsResult.empty DispatcherTimeline.empty Ex.metricsBad = some res ∧
      ((∃ f ∈ res.findings, f.rank = 7) ↔
        (Ex.metricsBad.cpu.isSome ∧ Ex.metricsBad.hikaricp_pending.isSome)) :=
  ⟨_, rfl, headroom_presence_gate _ _ _ _ _ _ _ rfl⟩

end CorrelatorProofs
